import Mathlib

/-!
Verification development for the AICoverGen-Mod pipeline (`src/main.py`).

The embedding is shallow: the filesystem is a value (`Disk`), the external
audio engines (downloader, separator, voice converter, effects chain, mixer)
are modelled by their file-creation postconditions, and every path-string
computation mirrors the corresponding f-string / `os.path` expression of the
source.  Python string primitives are re-implemented structurally over
`List Char` so that every definition evaluates inside the kernel.
-/

set_option maxRecDepth 40000

namespace AICoverGenMod

/-! ### Python-style string primitives -/

/-- ASCII lower-casing of one character, as `str.lower` acts on the ASCII
range (the only range our URLs use). -/
def charLower (c : Char) : Char :=
  if 'A' ≤ c ∧ c ≤ 'Z' then Char.ofNat (c.toNat + 32) else c

/-- Python `str.lower`, restricted to ASCII. -/
def lowerStr (s : String) : String := String.mk (s.data.map charLower)

/-- Is the first list a prefix of the second?  (Structural, so the kernel can
evaluate it; `String.startsWith` itself is iterator-based.) -/
def isPre : List Char → List Char → Bool
  | [], _ => true
  | _ :: _, [] => false
  | p :: ps, t :: ts => p = t && isPre ps ts

/-- Python `str.startswith`. -/
def strStarts (s pat : String) : Bool := isPre pat.data s.data

/-- Python `str.endswith`. -/
def strEnds (s pat : String) : Bool := isPre pat.data.reverse s.data.reverse

/-- Split a character list at every occurrence of the separator, Python
`str.split(sep)` for a one-character separator: `"a//b"` gives
`["a", "", "b"]` and `""` gives `[""]`. -/
def splitChar (c : Char) : List Char → List (List Char)
  | [] => [[]]
  | x :: xs =>
    if x = c then [] :: splitChar c xs
    else
      match splitChar c xs with
      | [] => [[x]]
      | y :: ys => (x :: y) :: ys

/-- Python `str.split(sep)` on strings, one-character separator. -/
def strSplit (s : String) (c : Char) : List String :=
  (splitChar c s.data).map String.mk

/-- One step of Python `str.replace`: fuelled so the recursion is structural
(the fuel is the length of the text, enough because each step consumes at
least one character when the pattern is nonempty). -/
def replaceAux (pat rep : List Char) : Nat → List Char → List Char
  | _, [] => []
  | 0, l => l
  | fuel + 1, x :: xs =>
    if pat ≠ [] ∧ isPre pat (x :: xs) then
      rep ++ replaceAux pat rep fuel (List.drop pat.length (x :: xs))
    else
      x :: replaceAux pat rep fuel xs

/-- Python `str.replace(old, new)`: every non-overlapping occurrence,
left to right. -/
def strReplace (s pat rep : String) : String :=
  String.mk (replaceAux pat.data rep.data s.data.length s.data)

/-- Python `str.strip('"')`: drop the quote character from both ends. -/
def stripQuotes (s : String) : String :=
  String.mk (((s.data.dropWhile (· = '"')).reverse.dropWhile (· = '"')).reverse)

/-- Python `str.lstrip('/')`. -/
def lstripSlash (s : String) : String :=
  String.mk (s.data.dropWhile (· = '/'))

/-- Python slicing `s[:n]` (character-wise prefix). -/
def strTake (s : String) (n : Nat) : String := String.mk (s.data.take n)

/-! ### Decimal rendering (Python `str` of numbers) and its injectivity -/

/-- Little-endian decimal digits, fuelled for structural recursion; with fuel
at least `n` it agrees with `Nat.digits 10 n`. -/
def natDigitsAux : Nat → Nat → List Nat
  | _, 0 => []
  | 0, _ + 1 => []
  | fuel + 1, n + 1 => (n + 1) % 10 :: natDigitsAux fuel ((n + 1) / 10)

/-- Little-endian decimal digits of `n`. -/
def natDigits (n : Nat) : List Nat := natDigitsAux n n

theorem natDigitsAux_eq_digits : ∀ fuel n, n ≤ fuel → natDigitsAux fuel n = Nat.digits 10 n := by
  intro fuel
  induction fuel with
  | zero =>
    intro n hn
    have h0 : n = 0 := Nat.le_zero.mp hn
    subst h0
    simp [natDigitsAux]
  | succ f ih =>
    intro n hn
    cases n with
    | zero => simp [natDigitsAux]
    | succ m =>
      rw [natDigitsAux, Nat.digits_def' (by norm_num : (1:Nat) < 10) (Nat.succ_pos m)]
      congr 1
      have hlt : (m + 1) / 10 < m + 1 := Nat.div_lt_self (Nat.succ_pos m) (by norm_num)
      exact ih _ (Nat.le_trans (Nat.le_of_lt_succ hlt) (Nat.le_of_succ_le_succ hn))

theorem natDigits_eq_digits (n : Nat) : natDigits n = Nat.digits 10 n :=
  natDigitsAux_eq_digits n n (Nat.le_refl n)

/-- Python `str(n)` for a natural number. -/
def natRepr (n : Nat) : String :=
  if n = 0 then "0" else String.mk ((natDigits n).reverse.map Nat.digitChar)

theorem digitChar_inj_lt :
    ∀ a, a < 10 → ∀ b, b < 10 → Nat.digitChar a = Nat.digitChar b → a = b := by decide

theorem digitChar_isDigit : ∀ a, a < 10 → (Nat.digitChar a).isDigit = true := by decide

theorem map_digitChar_inj :
    ∀ (l₁ l₂ : List Nat), (∀ x ∈ l₁, x < 10) → (∀ x ∈ l₂, x < 10) →
      l₁.map Nat.digitChar = l₂.map Nat.digitChar → l₁ = l₂ := by
  intro l₁
  induction l₁ with
  | nil =>
    intro l₂ _ _ h
    cases l₂ with
    | nil => rfl
    | cons b t => simp at h
  | cons a t ih =>
    intro l₂ h1 h2 h
    cases l₂ with
    | nil => simp at h
    | cons b t₂ =>
      simp only [List.map_cons, List.cons.injEq] at h
      have hab : a = b := digitChar_inj_lt a (h1 a (by simp)) b (h2 b (by simp)) h.1
      have ht : t = t₂ := ih t₂ (fun x hx => h1 x (by simp [hx])) (fun x hx => h2 x (by simp [hx])) h.2
      rw [hab, ht]

theorem natRepr_inj : ∀ a b : Nat, natRepr a = natRepr b → a = b := by
  have key : ∀ n, n ≠ 0 → (Nat.digits 10 n).reverse.map Nat.digitChar = ['0'] → False := by
    intro n hn h
    have hrev : Nat.digits 10 n = [0] := by
      have h1 : (Nat.digits 10 n).reverse = [0].map id → Nat.digits 10 n = [0] := by
        intro hr
        have := congrArg List.reverse hr
        simpa using this
      apply h1
      have hb : ∀ x ∈ (Nat.digits 10 n).reverse, x < 10 := by
        intro x hx
        exact Nat.digits_lt_base (by norm_num) (List.mem_reverse.mp hx)
      have h0 : ([0] : List Nat).map Nat.digitChar = ['0'] := by decide
      have := map_digitChar_inj ((Nat.digits 10 n).reverse) [0] hb (by decide) (by rw [h, h0])
      simpa using this
    have := Nat.ofDigits_digits 10 n
    rw [hrev] at this
    simp [Nat.ofDigits] at this
    exact hn this.symm
  intro a b h
  by_cases ha : a = 0 <;> by_cases hb : b = 0
  · rw [ha, hb]
  · exfalso
    rw [natRepr, natRepr, if_pos ha, if_neg hb] at h
    have hd := congrArg String.data h
    simp only [String.data] at hd
    apply key b hb
    rw [natDigits_eq_digits] at hd
    exact hd.symm
  · exfalso
    rw [natRepr, natRepr, if_neg ha, if_pos hb] at h
    have hd := congrArg String.data h
    simp only [String.data] at hd
    apply key a ha
    rw [natDigits_eq_digits] at hd
    exact hd
  · rw [natRepr, natRepr, if_neg ha, if_neg hb] at h
    have hd := congrArg String.data h
    simp only [String.data] at hd
    rw [natDigits_eq_digits, natDigits_eq_digits] at hd
    have hb1 : ∀ x ∈ (Nat.digits 10 a).reverse, x < 10 := fun x hx =>
      Nat.digits_lt_base (by norm_num) (List.mem_reverse.mp hx)
    have hb2 : ∀ x ∈ (Nat.digits 10 b).reverse, x < 10 := fun x hx =>
      Nat.digits_lt_base (by norm_num) (List.mem_reverse.mp hx)
    have hrv := map_digitChar_inj _ _ hb1 hb2 hd
    have hdig : Nat.digits 10 a = Nat.digits 10 b := List.reverse_injective hrv
    have := Nat.ofDigits_digits 10 a
    rw [hdig, Nat.ofDigits_digits] at this
    exact this.symm

theorem natRepr_chars : ∀ n, ∀ c ∈ (natRepr n).data, c.isDigit = true := by
  intro n c hc
  rw [natRepr] at hc
  by_cases hn : n = 0
  · rw [if_pos hn] at hc
    simp only [String.data] at hc
    have : c = '0' := by simpa using hc
    rw [this]; decide
  · rw [if_neg hn] at hc
    simp only [String.data] at hc
    rw [natDigits_eq_digits] at hc
    rcases List.mem_map.mp hc with ⟨d, hd, hdc⟩
    have : d < 10 := Nat.digits_lt_base (by norm_num) (List.mem_reverse.mp hd)
    rw [← hdc]
    exact digitChar_isDigit d this

theorem natRepr_ne_nil : ∀ n, (natRepr n).data ≠ [] := by
  intro n
  rw [natRepr]
  by_cases hn : n = 0
  · rw [if_pos hn]; simp [String.data]
  · rw [if_neg hn]
    simp only [String.data, ne_eq, List.map_eq_nil_iff, List.reverse_eq_nil_iff]
    rw [natDigits_eq_digits]
    exact Nat.digits_ne_nil_iff_ne_zero.mpr hn

/-- Python `str(i)` for an integer. -/
def intRepr : Int → String
  | .ofNat n => natRepr n
  | .negSucc n => "-" ++ natRepr (n + 1)

theorem string_data_append (a b : String) : (a ++ b).data = a.data ++ b.data := by
  cases a; cases b; rfl

theorem intRepr_inj : ∀ a b : Int, intRepr a = intRepr b → a = b := by
  intro a b h
  cases a with
  | ofNat n =>
    cases b with
    | ofNat m =>
      rw [intRepr, intRepr] at h
      rw [natRepr_inj n m h]
    | negSucc m =>
      exfalso
      rw [intRepr, intRepr] at h
      have hd := congrArg String.data h
      rw [string_data_append] at hd
      cases hm : (natRepr n).data with
      | nil => exact natRepr_ne_nil n hm
      | cons c r =>
        rw [hm] at hd
        have hdash : c = '-' := by
          have : ("-" : String).data = ['-'] := rfl
          rw [this] at hd
          exact (List.cons.injEq _ _ _ _ ▸ hd).1
        have hdig := natRepr_chars n c (by rw [hm]; simp)
        rw [hdash] at hdig
        exact absurd hdig (by decide)
  | negSucc n =>
    cases b with
    | ofNat m =>
      exfalso
      rw [intRepr, intRepr] at h
      have hd := congrArg String.data h
      rw [string_data_append] at hd
      cases hm : (natRepr m).data with
      | nil => exact natRepr_ne_nil m hm
      | cons c r =>
        rw [hm] at hd
        have hdash : c = '-' := by
          have : ("-" : String).data = ['-'] := rfl
          rw [this] at hd
          exact ((List.cons.injEq _ _ _ _ ▸ hd).1).symm
        have hdig := natRepr_chars m c (by rw [hm]; simp)
        rw [hdash] at hdig
        exact absurd hdig (by decide)
    | negSucc m =>
      rw [intRepr, intRepr] at h
      have hd := congrArg String.data h
      rw [string_data_append, string_data_append] at hd
      have : (natRepr (n + 1)).data = (natRepr (m + 1)).data :=
        List.append_cancel_left hd
      have hnm := natRepr_inj (n + 1) (m + 1) (String.ext this)
      have : n = m := by omega
      rw [this]

/-- Rendering of the three `float`-typed parameters.  Python prints the float
repr; here the (numerator, denominator) pair of the rational stand-in is
rendered instead.  What matters to the claims is only that the rendering is
injective — distinct parameter values give distinct path fragments — which
`ratRepr_inj` establishes, mirroring the injectivity of Python float repr. -/
def ratRepr (q : ℚ) : String := intRepr q.num ++ "." ++ natRepr q.den

theorem append_sep_inj {c : Char} :
    ∀ (a₁ a₂ b₁ b₂ : List Char), c ∉ a₁ → c ∉ a₂ →
      a₁ ++ c :: b₁ = a₂ ++ c :: b₂ → a₁ = a₂ ∧ b₁ = b₂ := by
  intro a₁
  induction a₁ with
  | nil =>
    intro a₂ b₁ b₂ _ h2 h
    cases a₂ with
    | nil => simpa using h
    | cons x t =>
      exfalso
      simp only [List.nil_append, List.cons_append, List.cons.injEq] at h
      exact h2 (by rw [h.1]; simp)
  | cons x t ih =>
    intro a₂ b₁ b₂ h1 h2 h
    cases a₂ with
    | nil =>
      exfalso
      simp only [List.cons_append, List.nil_append, List.cons.injEq] at h
      exact h1 (by rw [← h.1]; simp)
    | cons y t₂ =>
      simp only [List.cons_append, List.cons.injEq] at h
      have hxy : x = y := h.1
      have ht := ih t₂ b₁ b₂ (fun hc => h1 (by simp [hc])) (fun hc => h2 (by simp [hc])) h.2
      exact ⟨by rw [hxy, ht.1], ht.2⟩

theorem intRepr_chars : ∀ i : Int, ∀ c ∈ (intRepr i).data, c.isDigit = true ∨ c = '-' := by
  intro i c hc
  cases i with
  | ofNat n => exact Or.inl (natRepr_chars n c hc)
  | negSucc n =>
    rw [intRepr, string_data_append] at hc
    rcases List.mem_append.mp hc with hl | hr
    · right
      have : ("-" : String).data = ['-'] := rfl
      rw [this] at hl
      simpa using hl
    · exact Or.inl (natRepr_chars (n + 1) c hr)

theorem ratRepr_inj : ∀ p q : ℚ, ratRepr p = ratRepr q → p = q := by
  intro p q h
  have hd := congrArg String.data h
  rw [ratRepr, ratRepr, string_data_append, string_data_append,
      string_data_append, string_data_append] at hd
  have hdot : ("." : String).data = ['.'] := rfl
  rw [hdot] at hd
  simp only [List.append_assoc, List.cons_append, List.nil_append] at hd
  have hnum : ('.' : Char) ∉ (intRepr p.num).data := by
    intro hmem
    rcases intRepr_chars p.num '.' hmem with hdig | hdash
    · exact absurd hdig (by decide)
    · exact absurd hdash (by decide)
  have hnum' : ('.' : Char) ∉ (intRepr q.num).data := by
    intro hmem
    rcases intRepr_chars q.num '.' hmem with hdig | hdash
    · exact absurd hdig (by decide)
    · exact absurd hdash (by decide)
  have hsplit := append_sep_inj _ _ _ _ hnum hnum' hd
  have h1 : p.num = q.num := intRepr_inj _ _ (String.ext hsplit.1)
  have h2 : p.den = q.den := natRepr_inj _ _ (String.ext hsplit.2)
  exact Rat.ext h1 h2

/-! ### Chunking (the 8192-byte read loop of `get_hash`) -/

/-- Cut a list into consecutive chunks of `n` elements (the last chunk may be
shorter); fuelled for structural recursion, with fuel the length of the
list. -/
def chunksAux {α : Type} (n : Nat) : Nat → List α → List (List α)
  | _, [] => []
  | 0, l => [l]
  | fuel + 1, x :: xs => List.take n (x :: xs) :: chunksAux n fuel (List.drop n (x :: xs))

/-- Consecutive chunks of `n` elements. -/
def chunksOf {α : Type} (n : Nat) (l : List α) : List (List α) :=
  chunksAux n l.length l

theorem chunksAux_join {α : Type} (n : Nat) (hn : 0 < n) :
    ∀ fuel (l : List α), l.length ≤ fuel → (chunksAux n fuel l).flatten = l := by
  intro fuel
  induction fuel with
  | zero =>
    intro l h
    cases l with
    | nil => rfl
    | cons x xs => simp at h
  | succ f ih =>
    intro l h
    cases l with
    | nil => rfl
    | cons x xs =>
      rw [chunksAux]
      simp only [List.flatten_cons]
      rw [ih (List.drop n (x :: xs)) ?hlen]
      · exact List.take_append_drop n (x :: xs)
      case hlen =>
        rw [List.length_drop]
        simp only [List.length_cons] at h ⊢
        omega

theorem chunksOf_join {α : Type} (n : Nat) (hn : 0 < n) (l : List α) :
    (chunksOf n l).flatten = l :=
  chunksAux_join n hn l.length l (Nat.le_refl _)

/-! ### BLAKE2b (RFC 7693, unkeyed, 64-byte digest) — the hash `get_hash`
streams the file through -/

/-- The BLAKE2b initialization vector. -/
def blakeIV : List Nat :=
  [0x6a09e667f3bcc908, 0xbb67ae8584caa73b, 0x3c6ef372fe94f82b, 0xa54ff53a5f1d36f1,
   0x510e527fade682d1, 0x9b05688c2b3e6c1f, 0x1f83d9abfb41bd6b, 0x5be0cd19137e2179]

/-- The BLAKE2 message schedule. -/
def blakeSigma : List (List Nat) :=
  [[0, 1, 2, 3, 4, 5, 6, 7, 8, 9, 10, 11, 12, 13, 14, 15],
   [14, 10, 4, 8, 9, 15, 13, 6, 1, 12, 0, 2, 11, 7, 5, 3],
   [11, 8, 12, 0, 5, 2, 15, 13, 10, 14, 3, 6, 7, 1, 9, 4],
   [7, 9, 3, 1, 13, 12, 11, 14, 2, 6, 5, 10, 4, 0, 15, 8],
   [9, 0, 5, 7, 2, 4, 10, 15, 14, 1, 11, 12, 6, 8, 3, 13],
   [2, 12, 6, 10, 0, 11, 8, 3, 4, 13, 7, 5, 15, 14, 1, 9],
   [12, 5, 1, 15, 14, 13, 4, 10, 0, 7, 6, 3, 9, 2, 8, 11],
   [13, 11, 7, 14, 12, 1, 3, 9, 5, 0, 15, 4, 8, 6, 2, 10],
   [6, 15, 14, 9, 11, 3, 0, 8, 12, 2, 13, 7, 1, 4, 10, 5],
   [10, 2, 8, 4, 7, 6, 1, 5, 15, 11, 9, 14, 3, 12, 13, 0]]

/-- 2 to the 64: the word modulus. -/
def wordMod : Nat := 2 ^ 64

/-- Addition modulo 2^64. -/
def addW (a b : Nat) : Nat := (a + b) % wordMod

/-- Bitwise xor (inputs stay below 2^64 throughout). -/
def xorW (a b : Nat) : Nat := a ^^^ b

/-- Rotate a 64-bit word right by `n`. -/
def rotr (x n : Nat) : Nat := x / 2 ^ n + x % 2 ^ n * 2 ^ (64 - n)

/-- The BLAKE2b mixing function G acting on the 16-word working vector. -/
def blakeG (a b c d x y : Nat) (v : List Nat) : List Nat :=
  let v := v.set a (addW (addW (v.getD a 0) (v.getD b 0)) x)
  let v := v.set d (rotr (xorW (v.getD d 0) (v.getD a 0)) 32)
  let v := v.set c (addW (v.getD c 0) (v.getD d 0))
  let v := v.set b (rotr (xorW (v.getD b 0) (v.getD c 0)) 24)
  let v := v.set a (addW (addW (v.getD a 0) (v.getD b 0)) y)
  let v := v.set d (rotr (xorW (v.getD d 0) (v.getD a 0)) 16)
  let v := v.set c (addW (v.getD c 0) (v.getD d 0))
  let v := v.set b (rotr (xorW (v.getD b 0) (v.getD c 0)) 63)
  v

/-- One BLAKE2b round with message words `m` and schedule row `s`. -/
def blakeRound (m s : List Nat) (v : List Nat) : List Nat :=
  let mi := fun i => m.getD (s.getD i 0) 0
  v |> blakeG 0 4 8 12 (mi 0) (mi 1)
    |> blakeG 1 5 9 13 (mi 2) (mi 3)
    |> blakeG 2 6 10 14 (mi 4) (mi 5)
    |> blakeG 3 7 11 15 (mi 6) (mi 7)
    |> blakeG 0 5 10 15 (mi 8) (mi 9)
    |> blakeG 1 6 11 12 (mi 10) (mi 11)
    |> blakeG 2 7 8 13 (mi 12) (mi 13)
    |> blakeG 3 4 9 14 (mi 14) (mi 15)

/-- The BLAKE2b compression function F: 12 rounds, then feed-forward.
`t` is the byte offset counter and `last` the finalization flag. -/
def blakeCompress (h m : List Nat) (t : Nat) (last : Bool) : List Nat :=
  let v := h ++ blakeIV
  let v := v.set 12 (xorW (v.getD 12 0) (t % wordMod))
  let v := v.set 13 (xorW (v.getD 13 0) (t / wordMod % wordMod))
  let v := if last then v.set 14 (xorW (v.getD 14 0) (wordMod - 1)) else v
  let v := ((blakeSigma ++ blakeSigma).take 12).foldl (fun w s => blakeRound m s w) v
  (List.range 8).map fun i => xorW (xorW (h.getD i 0) (v.getD i 0)) (v.getD (i + 8) 0)

/-- Little-endian decoding of (up to) eight bytes into a word. -/
def wordOfBytesLE (bs : List Nat) : Nat := bs.foldr (fun b acc => b + 256 * acc) 0

/-- A 128-byte block as 16 little-endian words. -/
def blockWords (bs : List Nat) : List Nat := (chunksOf 8 bs).map wordOfBytesLE

/-- Zero-pad a block to 128 bytes. -/
def padTo128 (bs : List Nat) : List Nat := bs ++ List.replicate (128 - bs.length) 0

/-- The message blocks of the input: one zero block for the empty message,
otherwise the 128-byte chunks, the last one zero-padded. -/
def blakeBlocks (input : List Nat) : List (List Nat) :=
  if input = [] then [List.replicate 128 0] else (chunksOf 128 input).map padTo128

/-- Drive the compression function over the blocks: intermediate blocks use
the running byte count, the final block uses the total length and sets the
finalization flag. -/
def blakeFold (total : Nat) (h : List Nat) (idx : Nat) : List (List Nat) → List Nat
  | [] => h
  | [b] => blakeCompress h (blockWords b) total true
  | b :: b₂ :: bs =>
    blakeFold total (blakeCompress h (blockWords b) ((idx + 1) * 128) false) (idx + 1) (b₂ :: bs)

/-- The initial state: IV with the parameter block (digest length 64, fanout
1, depth 1) folded into the first word. -/
def blakeInit : List Nat := blakeIV.set 0 (xorW (blakeIV.getD 0 0) 0x01010040)

/-- The eight little-endian bytes of a word. -/
def wordBytesLE (w : Nat) : List Nat :=
  [w % 256, w / 256 % 256, w / 256 ^ 2 % 256, w / 256 ^ 3 % 256,
   w / 256 ^ 4 % 256, w / 256 ^ 5 % 256, w / 256 ^ 6 % 256, w / 256 ^ 7 % 256]

/-- The 64-byte BLAKE2b digest of a byte string. -/
def blake2b (input : List Nat) : List Nat :=
  ((blakeFold input.length blakeInit 0 (blakeBlocks input)).map wordBytesLE).flatten

/-- Two lowercase hex characters of a byte, high nibble first. -/
def byteHexChars (b : Nat) : List Char :=
  [Nat.digitChar (b / 16 % 16), Nat.digitChar (b % 16)]

/-- Lowercase hex characters of a byte string. -/
def bytesToHex (bs : List Nat) : List Char := (bs.map byteHexChars).flatten

/-- `hashlib.blake2b(data).hexdigest()` as a function of the data. -/
def blake2bHex (input : List Nat) : String := String.mk (bytesToHex (blake2b input))

/-- The `hashlib.blake2b()` streaming object: semantically it is determined
by the bytes fed to it so far, of which it computes the digest. -/
structure HashCtx where
  buf : List Nat

/-- `ctx.update(chunk)`. -/
def HashCtx.update (c : HashCtx) (chunk : List Nat) : HashCtx := ⟨c.buf ++ chunk⟩

/-- `ctx.hexdigest()`. -/
def HashCtx.hexdigest (c : HashCtx) : String := blake2bHex c.buf

/-- `get_hash` (main.py lines 226-234): stream the file content through
BLAKE2b in 8192-byte chunks and keep the first 11 hex characters. -/
def get_hash (content : List Nat) : String :=
  strTake (((chunksOf 8192 content).foldl HashCtx.update ⟨[]⟩).hexdigest) 11

theorem foldl_update (l : List (List Nat)) :
    ∀ acc : List Nat, l.foldl HashCtx.update ⟨acc⟩ = ⟨acc ++ l.flatten⟩ := by
  induction l with
  | nil => intro acc; simp [List.foldl]
  | cons x xs ih =>
    intro acc
    simp only [List.foldl, HashCtx.update, List.flatten_cons]
    rw [ih (acc ++ x), List.append_assoc]

theorem blakeFold_length (total : Nat) :
    ∀ (blocks : List (List Nat)) (h : List Nat) (idx : Nat), blocks ≠ [] →
      (blakeFold total h idx blocks).length = 8 := by
  intro blocks
  induction blocks with
  | nil => intro h idx hne; exact absurd rfl hne
  | cons b bs ih =>
    intro h idx _
    cases bs with
    | nil => simp [blakeFold, blakeCompress]
    | cons b₂ bs₂ => exact ih _ _ (by simp)

theorem blakeBlocks_ne_nil (input : List Nat) : blakeBlocks input ≠ [] := by
  rw [blakeBlocks]
  by_cases h : input = []
  · rw [if_pos h]; simp
  · rw [if_neg h]
    cases input with
    | nil => exact absurd rfl h
    | cons x xs =>
      rw [chunksOf]
      simp [chunksAux]

theorem map_wordBytesLE_length (l : List Nat) :
    ((l.map wordBytesLE).flatten).length = 8 * l.length := by
  induction l with
  | nil => simp
  | cons x xs ih =>
    simp only [List.map_cons, List.flatten_cons, List.length_append, ih, List.length_cons]
    have : (wordBytesLE x).length = 8 := rfl
    rw [this]
    ring

theorem blake2b_length (input : List Nat) : (blake2b input).length = 64 := by
  rw [blake2b, map_wordBytesLE_length,
      blakeFold_length input.length (blakeBlocks input) blakeInit 0 (blakeBlocks_ne_nil input)]

theorem bytesToHex_length (bs : List Nat) : (bytesToHex bs).length = 2 * bs.length := by
  rw [bytesToHex]
  induction bs with
  | nil => simp
  | cons x xs ih =>
    simp only [List.map_cons, List.flatten_cons, List.length_append, ih, List.length_cons]
    have : (byteHexChars x).length = 2 := rfl
    rw [this]
    ring

theorem strTake_data (s : String) (n : Nat) : (strTake s n).data = s.data.take n := rfl

/-- Claim C6: `get_hash` returns exactly the first 11 hex characters of the
BLAKE2b digest of the file content (and that prefix really has 11
characters); as a pure function of the content it is deterministic and
depends only on the bytes. -/
theorem get_hash_spec (content : List Nat) :
    get_hash content = strTake (blake2bHex content) 11 ∧
      (get_hash content).data.length = 11 := by
  have hbuf : (chunksOf 8192 content).foldl HashCtx.update ⟨[]⟩ = ⟨content⟩ := by
    rw [foldl_update (chunksOf 8192 content) [], chunksOf_join 8192 (by norm_num) content]
    rfl
  have heq : get_hash content = strTake (blake2bHex content) 11 := by
    rw [get_hash, hbuf]
    rfl
  refine ⟨heq, ?_⟩
  rw [heq, strTake_data, List.length_take]
  have hlen : (blake2bHex content).data.length = 128 := by
    show (bytesToHex (blake2b content)).length = 128
    rw [bytesToHex_length, blake2b_length]
  rw [hlen]
  norm_num

/-- Sanity check of the BLAKE2b embedding against the RFC 7693 appendix A
test vector for the message "abc". -/
theorem blake2b_rfc_vector :
    blake2bHex [97, 98, 99] =
      "ba80a53f981c4d0d6a2797b69f12f6e94c212f14685ac4b74b12bb6fdbffa2d17d87c5392aab792dc252d5de4533cc9518d38aa8dbf1925ab92386edd4009923" := by
  decide

/-! ### URL parsing (`urllib.parse.urlparse` / `parse_qs`, the fragment the
source exercises) and `get_youtube_video_id` -/

/-- The components of a parsed URL that the source reads. -/
structure UrlParts where
  scheme : String
  hostname : String
  path : String
  query : String

/-- The part of the list after the last occurrence of `c` (the whole list
when `c` does not occur), as in Python `rpartition`. -/
def lastAfter (c : Char) (l : List Char) : List Char :=
  (splitChar c l).getLastD l

/-- Valid characters of a URL scheme. -/
def validSchemeChars (l : List Char) : Bool :=
  l.all fun c => c.isAlpha || c.isDigit || c = '+' || c = '-' || c = '.'

/-- `urllib.parse.urlparse`, restricted to the fields the source reads
(scheme, hostname, path, query).  Scheme and hostname are lower-cased as in
CPython; user-info and port are stripped from the hostname; the fragment is
split off before path and query. -/
def urlparse (url : String) : UrlParts :=
  let u := url.data
  let schemeCand := u.takeWhile (· ≠ ':')
  let hasScheme := schemeCand.length < u.length ∧ schemeCand ≠ [] ∧
    (schemeCand.headD ' ').isAlpha ∧ validSchemeChars schemeCand = true
  let scheme := if hasScheme then schemeCand.map charLower else []
  let rest := if hasScheme then u.drop (schemeCand.length + 1) else u
  let hasNetloc := isPre ['/', '/'] rest
  let netloc := if hasNetloc then (rest.drop 2).takeWhile (fun c => c ≠ '/' ∧ c ≠ '?' ∧ c ≠ '#') else []
  let rest₂ := if hasNetloc then (rest.drop 2).drop netloc.length else rest
  let rest₃ := rest₂.takeWhile (· ≠ '#')
  let path := rest₃.takeWhile (· ≠ '?')
  let query := (rest₃.drop path.length).drop 1
  let host := (lastAfter '@' netloc).takeWhile (· ≠ ':')
  ⟨String.mk scheme, String.mk (host.map charLower), String.mk path, String.mk query⟩

/-- First value of a key in a query string, as
`parse_qs(query).get(key, [None])[0]`: pairs without `=` and pairs with a
blank value are dropped, the first surviving value for the key wins. -/
def qsFirst (query key : String) : Option String :=
  let pairs := (splitChar '&' query.data).filterMap fun kv =>
    let k := kv.takeWhile (· ≠ '=')
    let v := (kv.drop k.length).drop 1
    if k.length = kv.length then none
    else if v = [] then none
    else some (String.mk k, String.mk v)
  (pairs.find? fun p => p.1 = key).map Prod.snd

/-- `get_youtube_video_id` (main.py lines 31-61): extract the video id from
the supported URL shapes; `none` when no id can be extracted. -/
def get_youtube_video_id (url : String) (ignorePlaylist : Bool) : Option String :=
  let parsed := urlparse url
  let hostname := lowerStr parsed.hostname
  if hostname = "youtu.be" then some (lstripSlash parsed.path)
  else if hostname = "www.youtube.com" ∨ hostname = "youtube.com" ∨
      hostname = "music.youtube.com" then
    match (if ignorePlaylist = false then qsFirst parsed.query "list" else none) with
    | some l => some l
    | none =>
      if parsed.path = "/watch" then qsFirst parsed.query "v"
      else if strStarts parsed.path "/watch/" then some ((strSplit parsed.path '/').getD 1 "")
      else if strStarts parsed.path "/embed/" then some ((strSplit parsed.path '/').getD 2 "")
      else if strStarts parsed.path "/v/" then some ((strSplit parsed.path '/').getD 2 "")
      else none
  else none

/-- Claim C7: `get_youtube_video_id` extracts the canonical id for the
short-link, watch, embed and `/v/` shapes and returns `none` when no id can
be extracted — but for the raw-path shape `/watch/<id>` it returns the
literal path segment `"watch"` instead of the id, refuting the claim at that
shape (code bug: the branch indexes `split('/')[1]`, which is always
`"watch"`, where the neighbouring branches index `[2]`). -/
theorem get_youtube_video_id_shapes :
    get_youtube_video_id "https://www.youtube.com/watch/SA2iWivDJiE" true = some "watch" ∧
    get_youtube_video_id "https://www.youtube.com/watch/SA2iWivDJiE" true ≠ some "SA2iWivDJiE" ∧
    get_youtube_video_id "https://youtu.be/SA2iWivDJiE" true = some "SA2iWivDJiE" ∧
    get_youtube_video_id "https://www.youtube.com/watch?v=_oPAwA_Udwc&feature=feedu" true =
      some "_oPAwA_Udwc" ∧
    get_youtube_video_id "https://www.youtube.com/embed/SA2iWivDJiE" true = some "SA2iWivDJiE" ∧
    get_youtube_video_id "https://www.youtube.com/v/SA2iWivDJiE?version=3" true =
      some "SA2iWivDJiE" ∧
    get_youtube_video_id "https://example.com/watch?v=abc" true = none := by
  decide

/-! ### Path helpers (`os.path`) -/

/-- `os.path.join` for the relative paths the pipeline builds. -/
def pathJoin (a b : String) : String := a ++ "/" ++ b

/-- `os.path.basename`: the part after the last slash. -/
def basename (p : String) : String := (strSplit p '/').getLastD p

/-- The root of `os.path.splitext` applied to a bare file name: cut at the
last dot, unless only dots precede it (CPython keeps names like `.bashrc`
whole). -/
def stemOfName (l : String) : String :=
  match (l.data.reverse.findIdx? (· = '.')) with
  | none => l
  | some i =>
    let k := l.data.length - 1 - i
    if (l.data.take k).any (· ≠ '.') then String.mk (l.data.take k) else l

/-- Join path components with slashes. -/
def joinWith (sep : String) : List String → String
  | [] => ""
  | [x] => x
  | x :: y :: rest => x ++ sep ++ joinWith sep (y :: rest)

/-- The root of `os.path.splitext` on a whole path: the extension is looked
for in the final component only. -/
def splitextStem (p : String) : String :=
  joinWith "/" ((strSplit p '/').dropLast ++ [stemOfName ((strSplit p '/').getLastD "")])

/-! ### The filesystem and the external engines -/

/-- The filesystem as a value: which files and which directories exist.
Lists with membership semantics (duplicates are harmless). -/
structure Disk where
  files : List String
  dirs : List String

/-- `os.path.exists` on a file path. -/
def fileExists (d : Disk) (p : String) : Bool := decide (p ∈ d.files)

/-- `os.path.exists` on a directory path. -/
def dirExists (d : Disk) (p : String) : Bool := decide (p ∈ d.dirs)

/-- A stage wrote the file at `p`. -/
def addFile (d : Disk) (p : String) : Disk := Disk.mk (p :: d.files) d.dirs

/-- `os.remove`. -/
def removeFile (d : Disk) (p : String) : Disk :=
  Disk.mk (d.files.filter fun q => decide (q ≠ p)) d.dirs

/-- `os.makedirs`. -/
def makeDirs (d : Disk) (p : String) : Disk := Disk.mk d.files (p :: d.dirs)

/-- The behaviour of the external collaborators, out of scope of the core
(spec section 6): where the downloader saves its file, whether an input is
mono, which files the operating system refuses to delete, and the byte
content of local files (read by `get_hash`). -/
structure Env where
  ytPath : String → String
  monoInput : String → Bool
  undeletable : String → Bool
  content : String → List Nat

/-- `output_dir` (main.py line 27), relative to the repository base
directory; the constant absolute prefix `BASE_DIR` is shared by every path
and omitted. -/
def output_dir : String := "song_output"

/-- How `song_cover_pipeline` classified its input. -/
inductive InputType where
  | yt : InputType
  | localFile : InputType
deriving DecidableEq

/-- The parameters of `song_cover_pipeline` (main.py lines 317-321).  The
three `float`-typed conversion parameters and the reverb levels are carried
as rationals. -/
structure Params where
  songInput : String
  voiceModel : String
  pitchChange : Int
  keepFiles : Bool
  mainGain : Int
  backupGain : Int
  instGain : Int
  indexRate : ℚ
  filterRadius : Int
  rmsMixRate : ℚ
  f0Method : String
  crepeHopLength : Int
  protect : ℚ
  pitchChangeAll : Int
  reverbRmSize : ℚ
  reverbWet : ℚ
  reverbDry : ℚ
  reverbDamping : ℚ
  outputFormat : String

/-! ### Stages (main.py lines 66-314): each external engine is modelled by
the files it reads and writes; a stage whose input file is missing fails,
as the underlying library call would raise -/

/-- `yt_download` (lines 66-89): the fetcher saves an audio file at a path
of its choosing. -/
def yt_download (env : Env) (link : String) (d : Disk) : String × Disk :=
  (env.ytPath link, addFile d (env.ytPath link))

/-- `convert_to_stereo` (lines 199-209): write a `_stereo.wav` sibling when
the input is mono, return the input unchanged otherwise. -/
def convert_to_stereo (env : Env) (audio_path : String) (d : Disk) :
    Except String (String × Disk) :=
  if fileExists d audio_path = false then .error ("librosa: file not found " ++ audio_path)
  else if env.monoInput audio_path then
    .ok (splitextStem audio_path ++ "_stereo.wav",
         addFile d (splitextStem audio_path ++ "_stereo.wav"))
  else .ok (audio_path, d)

/-- `separation_uvr` (lines 136-173): three separation passes named after
the input stem; the reverb residual is written and then removed; the raw
`_Vocals.wav` of the first pass stays behind. -/
def separation_uvr (filename output : String) (d : Disk) :
    Except String (String × String × String × String × Disk) :=
  if fileExists d filename = false then .error ("separator: file not found " ++ filename)
  else
    let base := stemOfName (basename filename)
    let instrumental_path := pathJoin output (base ++ "_Instrumental.wav")
    let initial_vocals := pathJoin output (base ++ "_Vocals.wav")
    let vocals_no_reverb := pathJoin output (base ++ "_Vocals (No Reverb).wav")
    let vocals_reverb := pathJoin output (base ++ "_Vocals (Reverb).wav")
    let main_vocals_dereverb := pathJoin output (base ++ "_Vocals_Main_DeReverb.wav")
    let backup_vocals := pathJoin output (base ++ "_Vocals_Backup.wav")
    let d := addFile (addFile d instrumental_path) initial_vocals
    let d := addFile (addFile d vocals_no_reverb) vocals_reverb
    let d := addFile (addFile d backup_vocals) main_vocals_dereverb
    let d := if fileExists d vocals_reverb then removeFile d vocals_reverb else d
    .ok (vocals_no_reverb, instrumental_path, main_vocals_dereverb, backup_vocals, d)

/-- One step of the `get_audio_paths` scan (lines 187-194): the last match
for each suffix wins, and the original-song path is derived from the
instrumental name. -/
def gapStep (acc : Option String × Option String × Option String × Option String)
    (p : String) : Option String × Option String × Option String × Option String :=
  if strEnds p "_Instrumental.wav" then
    (some (strReplace p "_Instrumental" ""), some p, acc.2.2.1, acc.2.2.2)
  else if strEnds p "_Vocals_Main_DeReverb.wav" then
    (acc.1, acc.2.1, some p, acc.2.2.2)
  else if strEnds p "_Vocals_Backup.wav" then
    (acc.1, acc.2.1, acc.2.2.1, some p)
  else acc

/-- `get_audio_paths` (lines 176-196): probe the run directory for the four
discovery artifacts by filename suffix. -/
def get_audio_paths (song_dir : String) (d : Disk) :
    Option String × Option String × Option String × Option String :=
  (d.files.filter fun p => strStarts p (song_dir ++ "/")).foldl gapStep
    (none, none, none, none)

/-- `preprocess_song` (lines 237-262): download if remote, create the run
directory, normalize to stereo, separate.  The source returns the
de-reverbed main vocals twice — as `main_vocals_path` and as
`main_vocals_dereverb_path` (line 262). -/
def preprocess_song (env : Env) (song_input song_id : String) (input_type : InputType)
    (d : Disk) : Except String (String × String × String × String × String × String × Disk) :=
  let step :=
    match input_type with
    | InputType.yt => yt_download env ((strSplit song_input '&').headD song_input) d
    | InputType.localFile => (song_input, d)
  let orig₀ := step.1
  let d := step.2
  let song_output_dir := pathJoin output_dir song_id
  let d := if dirExists d song_output_dir then d else makeDirs d song_output_dir
  match convert_to_stereo env orig₀ d with
  | .error e => .error e
  | .ok (orig, d) =>
    match separation_uvr orig song_output_dir d with
    | .error e => .error e
    | .ok (vnr, inst, mdr, bkp, d) => .ok (orig, vnr, inst, mdr, bkp, mdr, d)

/-- `voice_change` (lines 265-283): the conversion engine reads the vocals
and writes the converted output. -/
def voice_change (vocals_path output_path : String) (d : Disk) : Except String Disk :=
  if fileExists d vocals_path = false then .error ("rvc: file not found " ++ vocals_path)
  else .ok (addFile d output_path)

/-- `add_audio_effects` (lines 286-303): the effects chain writes a
`_mixed.wav` sibling of its input. -/
def add_audio_effects (audio_path : String) (d : Disk) : Except String (String × Disk) :=
  if fileExists d audio_path = false then .error ("pedalboard: file not found " ++ audio_path)
  else .ok (splitextStem audio_path ++ "_mixed.wav",
            addFile d (splitextStem audio_path ++ "_mixed.wav"))

/-- `pitch_shift` (lines 212-223): cached by output path — a no-op when the
`_p<n>` sibling already exists. -/
def pitch_shift (audio_path : String) (pc : Int) (d : Disk) :
    Except String (String × Disk) :=
  let op := splitextStem audio_path ++ "_p" ++ intRepr pc ++ ".wav"
  if fileExists d op then .ok (op, d)
  else if fileExists d audio_path = false then
    .error ("soundfile: file not found " ++ audio_path)
  else .ok (op, addFile d op)

/-- `combine_audio` (lines 306-314): the mixer reads the three stems and
writes the final file. -/
def combine_audio_files (a b c output_path : String) (d : Disk) : Except String Disk :=
  if fileExists d a = false then .error ("pydub: file not found " ++ a)
  else if fileExists d b = false then .error ("pydub: file not found " ++ b)
  else if fileExists d c = false then .error ("pydub: file not found " ++ c)
  else .ok (addFile d output_path)

/-- The cleanup loop (lines 405-412): `for file in intermediate_files: if
file and os.path.exists(file): os.remove(file)`.  There is no
try/except around `os.remove`, so a deletion error propagates. -/
def removeIntermediates (env : Env) : List (Option String) → Disk → Except String Disk
  | [], d => .ok d
  | none :: rest, d => removeIntermediates env rest d
  | some f :: rest, d =>
    if f = "" then removeIntermediates env rest d
    else if fileExists d f then
      if env.undeletable f then .error ("PermissionError: " ++ f)
      else removeIntermediates env rest (removeFile d f)
    else removeIntermediates env rest d

/-! ### The pipeline controller `song_cover_pipeline` (lines 317-417) -/

/-- Lines 326-342: validate the inputs, classify the reference as remote
(scheme exactly `https`) or local, and resolve the run identifier — the
video id for a remote reference, the content hash for a local file; a local
path that does not exist is an error, not a download. -/
def resolveInput (env : Env) (d : Disk) (songInput voiceModel : String) :
    Except String (InputType × String × String) :=
  if songInput = "" ∨ voiceModel = "" then
    .error "Ensure that the song input field and voice model field is filled."
  else if (urlparse songInput).scheme = "https" then
    match get_youtube_video_id songInput true with
    | none => .error "Invalid YouTube url."
    | some songId => .ok (InputType.yt, songInput, songId)
  else
    if fileExists d (stripQuotes songInput) then
      .ok (InputType.localFile, stripQuotes songInput,
           get_hash (env.content (stripQuotes songInput)))
    else .error (stripQuotes songInput ++ " does not exist.")

/-- The hop-length suffix (line 367): embedded only for `mangio-crepe`. -/
def algoSuffix (f0_method : String) (crepe_hop_length : Int) : String :=
  if f0_method = "mangio-crepe" then "_" ++ intRepr crepe_hop_length else ""

/-- The parameter-encoding portion shared by the two conversion-artifact
names (lines 368-377): pitch (with the global transposition already added,
line 364), index rate, filter radius, rms mix rate, protect, pitch-detection
algorithm, and its hop length when the algorithm is `mangio-crepe`. -/
def aiTail (P : Params) : String :=
  "_p" ++ intRepr (P.pitchChange + P.pitchChangeAll) ++ "_i" ++ ratRepr P.indexRate ++
    "_fr" ++ intRepr P.filterRadius ++ "_rms" ++ ratRepr P.rmsMixRate ++ "_pro" ++
    ratRepr P.protect ++ "_" ++ P.f0Method ++ algoSuffix P.f0Method P.crepeHopLength ++ ".wav"

/-- The four parameter-encoding artifact names (lines 366-379): the lead and
backing conversion outputs and the two terminal covers, inside the run
directory. -/
def aiPathNames (song_dir base_song_name : String) (P : Params) :
    String × String × String × String :=
  (pathJoin song_dir (base_song_name ++ "_lead_" ++ P.voiceModel ++ aiTail P),
   pathJoin song_dir (base_song_name ++ "_backing_" ++ P.voiceModel ++ aiTail P),
   pathJoin song_dir (base_song_name ++ " (" ++ P.voiceModel ++ " Ver)." ++ P.outputFormat),
   pathJoin song_dir (base_song_name ++ " (" ++ P.voiceModel ++ " Ver With Backing)." ++ P.outputFormat))

/-- What the discovery phase (lines 344-362) hands to the rest of the
pipeline: the variables of the source, plus the filesystem and whether
preprocessing (download, stereo conversion, separation) ran. -/
structure DiscoverOut where
  orig_song_path : String
  vocals_path : Option String
  instrumentals_path : String
  main_vocals_path : Option String
  backup_vocals_path : String
  main_vocals_dereverb_path : String
  disk : Disk
  ranPre : Bool

/-- Lines 344-362: create the run directory and preprocess on a cache miss;
on a warm directory, re-preprocess when a discovery artifact is missing or
`keep_files` is set, and otherwise reuse the discovered paths (with
`main_vocals_path` aliased to the de-reverbed main vocals, line 362). -/
def discoverStep (env : Env) (d : Disk) (songInput songId : String)
    (inputType : InputType) (keepFiles : Bool) : Except String DiscoverOut :=
  let song_dir := pathJoin output_dir songId
  if dirExists d song_dir = false then
    match preprocess_song env songInput songId inputType (makeDirs d song_dir) with
    | .error e => .error e
    | .ok (o, v, i, m, b, mdr, d₂) => .ok ⟨o, some v, i, some m, b, mdr, d₂, true⟩
  else
    match get_audio_paths song_dir d with
    | (some o, some i, some m, some b) =>
      if keepFiles then
        match preprocess_song env songInput songId inputType d with
        | .error e => .error e
        | .ok (o, v, i, m, b, mdr, d₂) => .ok ⟨o, some v, i, some m, b, mdr, d₂, true⟩
      else .ok ⟨o, none, i, some m, b, m, d, false⟩
    | _ =>
      match preprocess_song env songInput songId inputType d with
      | .error e => .error e
      | .ok (o, v, i, m, b, mdr, d₂) => .ok ⟨o, some v, i, some m, b, mdr, d₂, true⟩

/-- The outcome of a successful run: the returned cover paths (line 414),
the resolved artifact paths, the final filesystem, and which optional work
ran. -/
structure RunResult where
  ai_cover_path : String
  ai_cover_backing_path : String
  ai_vocals_path : String
  ai_backing_path : String
  orig_song_path : String
  instrumentals_path : String
  main_vocals_dereverb_path : String
  backup_vocals_path : String
  ranPreprocess : Bool
  ranConversion : Bool
  disk : Disk

/-- Lines 364-414 after discovery: name the conversion artifacts, convert
when the lead output is absent (the gate of line 381 checks only
`ai_vocals_path`), apply effects, optionally pitch-shift, mix the two
covers, and clean up intermediates when `keep_files` is false. -/
def mainStages (env : Env) (P : Params) (song_dir : String) (dv : DiscoverOut) :
    Except String RunResult :=
  let base := stemOfName (basename dv.orig_song_path)
  let paths := aiPathNames song_dir base P
  let ai_vocals_path := paths.1
  let ai_backing_path := paths.2.1
  let ai_cover_path := paths.2.2.1
  let ai_cover_backing_path := paths.2.2.2
  let ranConv := !fileExists dv.disk ai_vocals_path
  let step₁ : Except String Disk :=
    if ranConv then
      match voice_change dv.main_vocals_dereverb_path ai_vocals_path dv.disk with
      | .error e => .error e
      | .ok d => voice_change dv.backup_vocals_path ai_backing_path d
    else .ok dv.disk
  match step₁ with
  | .error e => .error e
  | .ok d =>
    match add_audio_effects ai_vocals_path d with
    | .error e => .error e
    | .ok (mixedLead, d) =>
      match add_audio_effects ai_backing_path d with
      | .error e => .error e
      | .ok (mixedBack, d) =>
        let shifted : Except String (String × String × Disk) :=
          if P.pitchChangeAll ≠ 0 then
            match pitch_shift dv.instrumentals_path P.pitchChangeAll d with
            | .error e => .error e
            | .ok (instF, d) =>
              match pitch_shift dv.backup_vocals_path P.pitchChangeAll d with
              | .error e => .error e
              | .ok (backF, d) => .ok (instF, backF, d)
          else .ok (dv.instrumentals_path, dv.backup_vocals_path, d)
        match shifted with
        | .error e => .error e
        | .ok (instF, backF, d) =>
          match combine_audio_files mixedLead backF instF ai_cover_path d with
          | .error e => .error e
          | .ok d =>
            match combine_audio_files mixedLead mixedBack instF ai_cover_backing_path d with
            | .error e => .error e
            | .ok d =>
              let cleanupTargets : List (Option String) :=
                [dv.vocals_path, dv.main_vocals_path, some mixedLead, some mixedBack] ++
                  (if P.pitchChangeAll ≠ 0 then [some instF, some backF] else [])
              match (if P.keepFiles then Except.ok d
                     else removeIntermediates env cleanupTargets d) with
              | .error e => .error e
              | .ok d =>
                .ok ⟨ai_cover_path, ai_cover_backing_path, ai_vocals_path, ai_backing_path,
                     dv.orig_song_path, dv.instrumentals_path, dv.main_vocals_dereverb_path,
                     dv.backup_vocals_path, dv.ranPre, ranConv, d⟩

/-- `song_cover_pipeline` (lines 317-417): resolve the input, reuse or
rebuild the discovery artifacts, then convert, mix and clean up.  The
enclosing try/except re-raises the same message, so errors pass through
unchanged. -/
def song_cover_pipeline (env : Env) (P : Params) (d : Disk) : Except String RunResult :=
  match resolveInput env d P.songInput P.voiceModel with
  | .error e => .error e
  | .ok (it, si, songId) =>
    match discoverStep env d si songId it P.keepFiles with
    | .error e => .error e
    | .ok dv => mainStages env P (pathJoin output_dir songId) dv

/-! ### Concrete runs used to settle the frame and error-handling claims -/

/-- Did the run succeed with a result satisfying the predicate? -/
def okAnd (e : Except String RunResult) (f : RunResult → Bool) : Bool :=
  match e with
  | .ok r => f r
  | .error _ => false

/-- Did the run abort with exactly this message? -/
def errEq (e : Except String RunResult) (msg : String) : Bool :=
  match e with
  | .error m => decide (m = msg)
  | .ok _ => false

/-- A benign environment: the fetcher saves `CoolSong.mp3`, the input is
stereo, every file is deletable, local files are empty. -/
def benignEnv : Env := ⟨fun _ => "CoolSong.mp3", fun _ => false, fun _ => false, fun _ => []⟩

/-- A remote run with default-like parameters and `keep_files = false`. -/
def freshParams : Params :=
  ⟨"https://youtu.be/dQw4w9WgXcQ", "alice", 0, false, 0, 0, 0, 1, 3, 1,
   "rmvpe", 128, 1, 0, 0, 0, 0, 0, "mp3"⟩

/-- Claim C1: after a successful fresh run with `keep_files = false` the run
directory is supposed to retain the four discovery artifacts and in
particular never lose the de-reverbed main vocals.  The code run shows the
opposite: the run succeeds, the covers and three discovery artifacts are
there, but `..._Vocals_Main_DeReverb.wav` has been deleted (the cleanup list
contains `main_vocals_path`, which line 262 aliases to the de-reverbed main
vocals), and the raw `..._Vocals.wav` of the first separation pass — a
strictly-intermediate artifact — survives cleanup. -/
theorem cleanup_deletes_main_dereverb :
    okAnd (song_cover_pipeline benignEnv freshParams ⟨[], []⟩) (fun r =>
      !fileExists r.disk "song_output/dQw4w9WgXcQ/CoolSong_Vocals_Main_DeReverb.wav" &&
      fileExists r.disk "song_output/dQw4w9WgXcQ/CoolSong_Vocals.wav" &&
      fileExists r.disk "song_output/dQw4w9WgXcQ/CoolSong_Instrumental.wav" &&
      fileExists r.disk "song_output/dQw4w9WgXcQ/CoolSong_Vocals_Backup.wav" &&
      fileExists r.disk r.ai_cover_path &&
      fileExists r.disk r.ai_cover_backing_path &&
      r.ranPreprocess && r.ranConversion) = true := by
  decide

/-- The warm run directory of the C3 scenario: all four discovery artifacts
present, the lead conversion output present, the backing output absent —
the state left by a run that crashed between the two `voice_change` calls. -/
def c3Disk : Disk :=
  ⟨["song_output/dQw4w9WgXcQ/CoolSong_Instrumental.wav",
    "song_output/dQw4w9WgXcQ/CoolSong_Vocals_Main_DeReverb.wav",
    "song_output/dQw4w9WgXcQ/CoolSong_Vocals_Backup.wav",
    "song_output/dQw4w9WgXcQ/CoolSong_lead_alice_p0_i1.1_fr3_rms1.1_pro1.1_rmvpe.wav"],
   ["song_output/dQw4w9WgXcQ"]⟩

/-- Claim C3: the claim says a stage runs whenever one of its outputs is
absent, so with `ai_backing_path` absent the conversion stage should run and
produce it.  The code gates the whole conversion stage on `ai_vocals_path`
alone (line 381): in this state the stage is skipped even though the
backing output is absent, and the run then aborts inside the effects stage
trying to read the missing backing file — it neither runs conversion nor
produces the backing artifact. -/
theorem conversion_gate_skips_missing_backing :
    fileExists c3Disk
        "song_output/dQw4w9WgXcQ/CoolSong_lead_alice_p0_i1.1_fr3_rms1.1_pro1.1_rmvpe.wav"
      = true ∧
    fileExists c3Disk
        "song_output/dQw4w9WgXcQ/CoolSong_backing_alice_p0_i1.1_fr3_rms1.1_pro1.1_rmvpe.wav"
      = false ∧
    errEq (song_cover_pipeline benignEnv freshParams c3Disk)
      ("pedalboard: file not found " ++
       "song_output/dQw4w9WgXcQ/CoolSong_backing_alice_p0_i1.1_fr3_rms1.1_pro1.1_rmvpe.wav")
      = true := by
  refine ⟨by decide, by decide, by decide⟩

/-- An environment in which the operating system refuses to delete the
effects-stage lead output (for example with a permission error). -/
def undeletableMixedEnv : Env :=
  ⟨fun _ => "CoolSong.mp3", fun _ => false,
   fun f =>
     decide (f = "song_output/dQw4w9WgXcQ/CoolSong_lead_alice_p0_i1.1_fr3_rms1.1_pro1.1_rmvpe_mixed.wav"),
   fun _ => []⟩

/-- Claim C5 counterexample: a permission error while deleting an
intermediate file during cleanup is not suppressed — the whole pipeline
aborts with that error instead of returning the two cover paths (the
cleanup loop of lines 405-412 has no try/except around `os.remove`). -/
theorem cleanup_error_fails_pipeline :
    errEq (song_cover_pipeline undeletableMixedEnv freshParams ⟨[], []⟩)
      ("PermissionError: " ++
       "song_output/dQw4w9WgXcQ/CoolSong_lead_alice_p0_i1.1_fr3_rms1.1_pro1.1_rmvpe_mixed.wav")
      = true := by
  decide

/-! ### Cache-key properties of the artifact names (claims C2 and C8) -/

theorem algoSuffix_of_ne (f0 : String) (hop : Int) (h : f0 ≠ "mangio-crepe") :
    algoSuffix f0 hop = "" := by
  rw [algoSuffix, if_neg h]

/-- Claim C2 (amended): two parameter sets that differ only in the pitch
change resolve distinct lead and backing conversion-artifact paths, but the
two final cover paths are identical — the cover names embed only the voice
model and output format, so a re-run overwrites the covers instead of
producing distinctly-named ones. -/
theorem conversion_paths_vary_cover_paths_fixed
    (dir base : String) (P Q : Params)
    (hvm : Q.voiceModel = P.voiceModel)
    (hir : Q.indexRate = P.indexRate)
    (hfr : Q.filterRadius = P.filterRadius)
    (hrms : Q.rmsMixRate = P.rmsMixRate)
    (hf0 : Q.f0Method = P.f0Method)
    (hhop : Q.crepeHopLength = P.crepeHopLength)
    (hpro : Q.protect = P.protect)
    (hall : Q.pitchChangeAll = P.pitchChangeAll)
    (hfmt : Q.outputFormat = P.outputFormat)
    (hp : Q.pitchChange ≠ P.pitchChange) :
    (aiPathNames dir base Q).1 ≠ (aiPathNames dir base P).1 ∧
    (aiPathNames dir base Q).2.1 ≠ (aiPathNames dir base P).2.1 ∧
    (aiPathNames dir base Q).2.2.1 = (aiPathNames dir base P).2.2.1 ∧
    (aiPathNames dir base Q).2.2.2 = (aiPathNames dir base P).2.2.2 := by
  refine ⟨?_, ?_, ?_, ?_⟩
  · intro h
    simp only [aiPathNames, aiTail, pathJoin] at h
    rw [hvm, hir, hfr, hrms, hf0, hhop, hpro, hall] at h
    have hd := congrArg String.data h
    simp only [string_data_append, List.append_assoc] at hd
    replace hd := List.append_cancel_left hd
    replace hd := List.append_cancel_left hd
    replace hd := List.append_cancel_left hd
    replace hd := List.append_cancel_left hd
    replace hd := List.append_cancel_left hd
    replace hd := List.append_cancel_left hd
    replace hd := List.append_cancel_right hd
    have := intRepr_inj _ _ (String.ext hd)
    exact hp (by omega)
  · intro h
    simp only [aiPathNames, aiTail, pathJoin] at h
    rw [hvm, hir, hfr, hrms, hf0, hhop, hpro, hall] at h
    have hd := congrArg String.data h
    simp only [string_data_append, List.append_assoc] at hd
    replace hd := List.append_cancel_left hd
    replace hd := List.append_cancel_left hd
    replace hd := List.append_cancel_left hd
    replace hd := List.append_cancel_left hd
    replace hd := List.append_cancel_left hd
    replace hd := List.append_cancel_left hd
    replace hd := List.append_cancel_right hd
    have := intRepr_inj _ _ (String.ext hd)
    exact hp (by omega)
  · simp only [aiPathNames, pathJoin]
    rw [hvm, hfmt]
  · simp only [aiPathNames, pathJoin]
    rw [hvm, hfmt]

/-- The first run of the section-8 scenario: pitch change `+2`. -/
def c2FirstParams : Params :=
  ⟨"https://youtu.be/dQw4w9WgXcQ", "alice", 2, false, 0, 0, 0, 1, 3, 1,
   "rmvpe", 128, 1, 0, 0, 0, 0, 0, "mp3"⟩

/-- The second run of the section-8 scenario: pitch change `+3`, everything
else unchanged. -/
def c2SecondParams : Params :=
  ⟨"https://youtu.be/dQw4w9WgXcQ", "alice", 3, false, 0, 0, 0, 1, 3, 1,
   "rmvpe", 128, 1, 0, 0, 0, 0, 0, "mp3"⟩

/-- Claim C2 counterexample: run the pipeline, then run it again with only
the pitch change different.  Both runs succeed and resolve distinct
conversion-artifact paths, but the second run's two cover paths are equal to
the first run's — not distinctly named — and the second run re-runs
preprocessing (the first run's cleanup deleted a discovery artifact), so the
discovery artifacts are not left untouched either. -/
theorem second_run_overwrites_covers :
    c2FirstParams.pitchChange ≠ c2SecondParams.pitchChange ∧
    okAnd (song_cover_pipeline benignEnv c2FirstParams ⟨[], []⟩) (fun r₁ =>
      okAnd (song_cover_pipeline benignEnv c2SecondParams r₁.disk) (fun r₂ =>
        decide (r₂.ai_cover_path = r₁.ai_cover_path) &&
        decide (r₂.ai_cover_backing_path = r₁.ai_cover_backing_path) &&
        decide (r₂.ai_vocals_path ≠ r₁.ai_vocals_path) &&
        r₂.ranPreprocess)) = true := by
  exact ⟨by decide, by decide⟩

/-- Witness for the amended claim C2 at the concrete scenario inputs. -/
theorem conversion_paths_vary_cover_paths_fixed_witness :
    (aiPathNames "song_output/dQw4w9WgXcQ" "CoolSong" c2SecondParams).1 ≠
      (aiPathNames "song_output/dQw4w9WgXcQ" "CoolSong" c2FirstParams).1 ∧
    (aiPathNames "song_output/dQw4w9WgXcQ" "CoolSong" c2SecondParams).2.1 ≠
      (aiPathNames "song_output/dQw4w9WgXcQ" "CoolSong" c2FirstParams).2.1 ∧
    (aiPathNames "song_output/dQw4w9WgXcQ" "CoolSong" c2SecondParams).2.2.1 =
      (aiPathNames "song_output/dQw4w9WgXcQ" "CoolSong" c2FirstParams).2.2.1 ∧
    (aiPathNames "song_output/dQw4w9WgXcQ" "CoolSong" c2SecondParams).2.2.2 =
      (aiPathNames "song_output/dQw4w9WgXcQ" "CoolSong" c2FirstParams).2.2.2 :=
  conversion_paths_vary_cover_paths_fixed "song_output/dQw4w9WgXcQ" "CoolSong"
    c2FirstParams c2SecondParams rfl rfl rfl rfl rfl rfl rfl rfl rfl (by decide)

/-! ### Claim C8: every embedded parameter separates the conversion-artifact
names -/

theorem pathJoin_tail_inj (dir base lit model t₁ t₂ : String)
    (h : pathJoin dir (base ++ lit ++ model ++ t₁) = pathJoin dir (base ++ lit ++ model ++ t₂)) :
    t₁ = t₂ := by
  have hd := congrArg String.data h
  simp only [pathJoin, string_data_append, List.append_assoc] at hd
  replace hd := List.append_cancel_left hd
  replace hd := List.append_cancel_left hd
  replace hd := List.append_cancel_left hd
  replace hd := List.append_cancel_left hd
  replace hd := List.append_cancel_left hd
  exact String.ext hd

theorem aiTail_ne_of_pitch (P Q : Params)
    (hir : Q.indexRate = P.indexRate) (hfr : Q.filterRadius = P.filterRadius)
    (hrms : Q.rmsMixRate = P.rmsMixRate) (hf0 : Q.f0Method = P.f0Method)
    (hhop : Q.crepeHopLength = P.crepeHopLength) (hpro : Q.protect = P.protect)
    (hall : Q.pitchChangeAll = P.pitchChangeAll)
    (hp : Q.pitchChange ≠ P.pitchChange) : aiTail Q ≠ aiTail P := by
  intro h
  simp only [aiTail] at h
  rw [hir, hfr, hrms, hf0, hhop, hpro, hall] at h
  have hd := congrArg String.data h
  simp only [string_data_append, List.append_assoc] at hd
  replace hd := List.append_cancel_left hd
  replace hd := List.append_cancel_right hd
  have := intRepr_inj _ _ (String.ext hd)
  exact hp (by omega)

theorem aiTail_ne_of_indexRate (P Q : Params)
    (hpc : Q.pitchChange = P.pitchChange) (hfr : Q.filterRadius = P.filterRadius)
    (hrms : Q.rmsMixRate = P.rmsMixRate) (hf0 : Q.f0Method = P.f0Method)
    (hhop : Q.crepeHopLength = P.crepeHopLength) (hpro : Q.protect = P.protect)
    (hall : Q.pitchChangeAll = P.pitchChangeAll)
    (hir : Q.indexRate ≠ P.indexRate) : aiTail Q ≠ aiTail P := by
  intro h
  simp only [aiTail] at h
  rw [hpc, hfr, hrms, hf0, hhop, hpro, hall] at h
  have hd := congrArg String.data h
  simp only [string_data_append, List.append_assoc] at hd
  replace hd := List.append_cancel_left hd
  replace hd := List.append_cancel_left hd
  replace hd := List.append_cancel_left hd
  replace hd := List.append_cancel_right hd
  exact hir (ratRepr_inj _ _ (String.ext hd))

theorem aiTail_ne_of_filterRadius (P Q : Params)
    (hpc : Q.pitchChange = P.pitchChange) (hir : Q.indexRate = P.indexRate)
    (hrms : Q.rmsMixRate = P.rmsMixRate) (hf0 : Q.f0Method = P.f0Method)
    (hhop : Q.crepeHopLength = P.crepeHopLength) (hpro : Q.protect = P.protect)
    (hall : Q.pitchChangeAll = P.pitchChangeAll)
    (hfr : Q.filterRadius ≠ P.filterRadius) : aiTail Q ≠ aiTail P := by
  intro h
  simp only [aiTail] at h
  rw [hpc, hir, hrms, hf0, hhop, hpro, hall] at h
  have hd := congrArg String.data h
  simp only [string_data_append, List.append_assoc] at hd
  replace hd := List.append_cancel_left hd
  replace hd := List.append_cancel_left hd
  replace hd := List.append_cancel_left hd
  replace hd := List.append_cancel_left hd
  replace hd := List.append_cancel_left hd
  replace hd := List.append_cancel_right hd
  exact hfr (intRepr_inj _ _ (String.ext hd))

theorem aiTail_ne_of_rmsMixRate (P Q : Params)
    (hpc : Q.pitchChange = P.pitchChange) (hir : Q.indexRate = P.indexRate)
    (hfr : Q.filterRadius = P.filterRadius) (hf0 : Q.f0Method = P.f0Method)
    (hhop : Q.crepeHopLength = P.crepeHopLength) (hpro : Q.protect = P.protect)
    (hall : Q.pitchChangeAll = P.pitchChangeAll)
    (hrms : Q.rmsMixRate ≠ P.rmsMixRate) : aiTail Q ≠ aiTail P := by
  intro h
  simp only [aiTail] at h
  rw [hpc, hir, hfr, hf0, hhop, hpro, hall] at h
  have hd := congrArg String.data h
  simp only [string_data_append, List.append_assoc] at hd
  replace hd := List.append_cancel_left hd
  replace hd := List.append_cancel_left hd
  replace hd := List.append_cancel_left hd
  replace hd := List.append_cancel_left hd
  replace hd := List.append_cancel_left hd
  replace hd := List.append_cancel_left hd
  replace hd := List.append_cancel_left hd
  replace hd := List.append_cancel_right hd
  exact hrms (ratRepr_inj _ _ (String.ext hd))

theorem aiTail_ne_of_protect (P Q : Params)
    (hpc : Q.pitchChange = P.pitchChange) (hir : Q.indexRate = P.indexRate)
    (hfr : Q.filterRadius = P.filterRadius) (hrms : Q.rmsMixRate = P.rmsMixRate)
    (hf0 : Q.f0Method = P.f0Method) (hhop : Q.crepeHopLength = P.crepeHopLength)
    (hall : Q.pitchChangeAll = P.pitchChangeAll)
    (hpro : Q.protect ≠ P.protect) : aiTail Q ≠ aiTail P := by
  intro h
  simp only [aiTail] at h
  rw [hpc, hir, hfr, hrms, hf0, hhop, hall] at h
  have hd := congrArg String.data h
  simp only [string_data_append, List.append_assoc] at hd
  replace hd := List.append_cancel_left hd
  replace hd := List.append_cancel_left hd
  replace hd := List.append_cancel_left hd
  replace hd := List.append_cancel_left hd
  replace hd := List.append_cancel_left hd
  replace hd := List.append_cancel_left hd
  replace hd := List.append_cancel_left hd
  replace hd := List.append_cancel_left hd
  replace hd := List.append_cancel_left hd
  replace hd := List.append_cancel_right hd
  exact hpro (ratRepr_inj _ _ (String.ext hd))

theorem aiTail_ne_of_f0Method (P Q : Params)
    (hPset : P.f0Method = "rmvpe" ∨ P.f0Method = "mangio-crepe")
    (hQset : Q.f0Method = "rmvpe" ∨ Q.f0Method = "mangio-crepe")
    (hpc : Q.pitchChange = P.pitchChange) (hir : Q.indexRate = P.indexRate)
    (hfr : Q.filterRadius = P.filterRadius) (hrms : Q.rmsMixRate = P.rmsMixRate)
    (hhop : Q.crepeHopLength = P.crepeHopLength) (hall : Q.pitchChangeAll = P.pitchChangeAll)
    (hpro : Q.protect = P.protect)
    (hf0 : Q.f0Method ≠ P.f0Method) : aiTail Q ≠ aiTail P := by
  intro h
  simp only [aiTail] at h
  rw [hpc, hir, hfr, hrms, hhop, hall, hpro] at h
  rcases hPset with hP | hP <;> rcases hQset with hQ | hQ
  · exact hf0 (hQ.trans hP.symm)
  · rw [hP, hQ, algoSuffix_of_ne "rmvpe" P.crepeHopLength (by decide), algoSuffix,
        if_pos rfl] at h
    have hd := congrArg String.data h
    simp only [string_data_append, List.append_assoc] at hd
    replace hd := List.append_cancel_left hd
    replace hd := List.append_cancel_left hd
    replace hd := List.append_cancel_left hd
    replace hd := List.append_cancel_left hd
    replace hd := List.append_cancel_left hd
    replace hd := List.append_cancel_left hd
    replace hd := List.append_cancel_left hd
    replace hd := List.append_cancel_left hd
    replace hd := List.append_cancel_left hd
    replace hd := List.append_cancel_left hd
    replace hd := List.append_cancel_left hd
    simp at hd
  · rw [hP, hQ, algoSuffix_of_ne "rmvpe" P.crepeHopLength (by decide), algoSuffix,
        if_pos rfl] at h
    have hd := congrArg String.data h
    simp only [string_data_append, List.append_assoc] at hd
    replace hd := List.append_cancel_left hd
    replace hd := List.append_cancel_left hd
    replace hd := List.append_cancel_left hd
    replace hd := List.append_cancel_left hd
    replace hd := List.append_cancel_left hd
    replace hd := List.append_cancel_left hd
    replace hd := List.append_cancel_left hd
    replace hd := List.append_cancel_left hd
    replace hd := List.append_cancel_left hd
    replace hd := List.append_cancel_left hd
    replace hd := List.append_cancel_left hd
    simp at hd
  · exact hf0 (hQ.trans hP.symm)

theorem aiTail_ne_of_hop_mangio (P Q : Params)
    (hPf0 : P.f0Method = "mangio-crepe") (hQf0 : Q.f0Method = "mangio-crepe")
    (hpc : Q.pitchChange = P.pitchChange) (hir : Q.indexRate = P.indexRate)
    (hfr : Q.filterRadius = P.filterRadius) (hrms : Q.rmsMixRate = P.rmsMixRate)
    (hall : Q.pitchChangeAll = P.pitchChangeAll) (hpro : Q.protect = P.protect)
    (hhop : Q.crepeHopLength ≠ P.crepeHopLength) : aiTail Q ≠ aiTail P := by
  intro h
  simp only [aiTail] at h
  rw [hpc, hir, hfr, hrms, hall, hpro, hPf0, hQf0, algoSuffix, if_pos rfl] at h
  have hd := congrArg String.data h
  simp only [string_data_append, List.append_assoc] at hd
  replace hd := List.append_cancel_left hd
  replace hd := List.append_cancel_left hd
  replace hd := List.append_cancel_left hd
  replace hd := List.append_cancel_left hd
  replace hd := List.append_cancel_left hd
  replace hd := List.append_cancel_left hd
  replace hd := List.append_cancel_left hd
  replace hd := List.append_cancel_left hd
  replace hd := List.append_cancel_left hd
  replace hd := List.append_cancel_left hd
  replace hd := List.append_cancel_left hd
  replace hd := List.append_cancel_left hd
  replace hd := List.append_cancel_left hd
  replace hd := List.append_cancel_right hd
  exact hhop (intRepr_inj _ _ (String.ext hd))

theorem pathJoin_model_inj (dir base lit m₁ m₂ t : String)
    (h : pathJoin dir (base ++ lit ++ m₁ ++ t) = pathJoin dir (base ++ lit ++ m₂ ++ t)) :
    m₁ = m₂ := by
  have hd := congrArg String.data h
  simp only [pathJoin, string_data_append, List.append_assoc] at hd
  replace hd := List.append_cancel_left hd
  replace hd := List.append_cancel_left hd
  replace hd := List.append_cancel_left hd
  replace hd := List.append_cancel_left hd
  replace hd := List.append_cancel_right hd
  exact String.ext hd

theorem aiTail_congr (P Q : Params)
    (hpc : Q.pitchChange = P.pitchChange) (hall : Q.pitchChangeAll = P.pitchChangeAll)
    (hir : Q.indexRate = P.indexRate) (hfr : Q.filterRadius = P.filterRadius)
    (hrms : Q.rmsMixRate = P.rmsMixRate) (hf0 : Q.f0Method = P.f0Method)
    (hhop : Q.crepeHopLength = P.crepeHopLength) (hpro : Q.protect = P.protect) :
    aiTail Q = aiTail P := by
  simp only [aiTail]
  rw [hpc, hall, hir, hfr, hrms, hf0, hhop, hpro]

/-- Claim C8: the conversion-artifact names are pure functions of the
embedded parameters, and changing any single one of voice model, pitch
change, index rate, filter radius, rms mix rate, protect, or the
pitch-detection algorithm (within its supported set) changes both the lead
and the backing artifact path; the hop length changes the path exactly when
the algorithm is `mangio-crepe`, and is not embedded otherwise. -/
theorem conversion_artifact_names_embed_parameters :
    (∀ dir base P Q, Q.pitchChange = P.pitchChange → Q.pitchChangeAll = P.pitchChangeAll →
      Q.indexRate = P.indexRate → Q.filterRadius = P.filterRadius →
      Q.rmsMixRate = P.rmsMixRate → Q.f0Method = P.f0Method →
      Q.crepeHopLength = P.crepeHopLength → Q.protect = P.protect →
      Q.voiceModel ≠ P.voiceModel →
      (aiPathNames dir base Q).1 ≠ (aiPathNames dir base P).1 ∧
      (aiPathNames dir base Q).2.1 ≠ (aiPathNames dir base P).2.1) ∧
    (∀ dir base P Q, Q.voiceModel = P.voiceModel → Q.pitchChangeAll = P.pitchChangeAll →
      Q.indexRate = P.indexRate → Q.filterRadius = P.filterRadius →
      Q.rmsMixRate = P.rmsMixRate → Q.f0Method = P.f0Method →
      Q.crepeHopLength = P.crepeHopLength → Q.protect = P.protect →
      Q.pitchChange ≠ P.pitchChange →
      (aiPathNames dir base Q).1 ≠ (aiPathNames dir base P).1 ∧
      (aiPathNames dir base Q).2.1 ≠ (aiPathNames dir base P).2.1) ∧
    (∀ dir base P Q, Q.voiceModel = P.voiceModel → Q.pitchChange = P.pitchChange →
      Q.pitchChangeAll = P.pitchChangeAll → Q.filterRadius = P.filterRadius →
      Q.rmsMixRate = P.rmsMixRate → Q.f0Method = P.f0Method →
      Q.crepeHopLength = P.crepeHopLength → Q.protect = P.protect →
      Q.indexRate ≠ P.indexRate →
      (aiPathNames dir base Q).1 ≠ (aiPathNames dir base P).1 ∧
      (aiPathNames dir base Q).2.1 ≠ (aiPathNames dir base P).2.1) ∧
    (∀ dir base P Q, Q.voiceModel = P.voiceModel → Q.pitchChange = P.pitchChange →
      Q.pitchChangeAll = P.pitchChangeAll → Q.indexRate = P.indexRate →
      Q.rmsMixRate = P.rmsMixRate → Q.f0Method = P.f0Method →
      Q.crepeHopLength = P.crepeHopLength → Q.protect = P.protect →
      Q.filterRadius ≠ P.filterRadius →
      (aiPathNames dir base Q).1 ≠ (aiPathNames dir base P).1 ∧
      (aiPathNames dir base Q).2.1 ≠ (aiPathNames dir base P).2.1) ∧
    (∀ dir base P Q, Q.voiceModel = P.voiceModel → Q.pitchChange = P.pitchChange →
      Q.pitchChangeAll = P.pitchChangeAll → Q.indexRate = P.indexRate →
      Q.filterRadius = P.filterRadius → Q.f0Method = P.f0Method →
      Q.crepeHopLength = P.crepeHopLength → Q.protect = P.protect →
      Q.rmsMixRate ≠ P.rmsMixRate →
      (aiPathNames dir base Q).1 ≠ (aiPathNames dir base P).1 ∧
      (aiPathNames dir base Q).2.1 ≠ (aiPathNames dir base P).2.1) ∧
    (∀ dir base P Q, Q.voiceModel = P.voiceModel → Q.pitchChange = P.pitchChange →
      Q.pitchChangeAll = P.pitchChangeAll → Q.indexRate = P.indexRate →
      Q.filterRadius = P.filterRadius → Q.rmsMixRate = P.rmsMixRate →
      Q.f0Method = P.f0Method → Q.crepeHopLength = P.crepeHopLength →
      Q.protect ≠ P.protect →
      (aiPathNames dir base Q).1 ≠ (aiPathNames dir base P).1 ∧
      (aiPathNames dir base Q).2.1 ≠ (aiPathNames dir base P).2.1) ∧
    (∀ dir base P Q, (P.f0Method = "rmvpe" ∨ P.f0Method = "mangio-crepe") →
      (Q.f0Method = "rmvpe" ∨ Q.f0Method = "mangio-crepe") →
      Q.voiceModel = P.voiceModel → Q.pitchChange = P.pitchChange →
      Q.pitchChangeAll = P.pitchChangeAll → Q.indexRate = P.indexRate →
      Q.filterRadius = P.filterRadius → Q.rmsMixRate = P.rmsMixRate →
      Q.crepeHopLength = P.crepeHopLength → Q.protect = P.protect →
      Q.f0Method ≠ P.f0Method →
      (aiPathNames dir base Q).1 ≠ (aiPathNames dir base P).1 ∧
      (aiPathNames dir base Q).2.1 ≠ (aiPathNames dir base P).2.1) ∧
    (∀ dir base P Q, P.f0Method = "mangio-crepe" → Q.f0Method = "mangio-crepe" →
      Q.voiceModel = P.voiceModel → Q.pitchChange = P.pitchChange →
      Q.pitchChangeAll = P.pitchChangeAll → Q.indexRate = P.indexRate →
      Q.filterRadius = P.filterRadius → Q.rmsMixRate = P.rmsMixRate →
      Q.protect = P.protect →
      Q.crepeHopLength ≠ P.crepeHopLength →
      (aiPathNames dir base Q).1 ≠ (aiPathNames dir base P).1 ∧
      (aiPathNames dir base Q).2.1 ≠ (aiPathNames dir base P).2.1) ∧
    (∀ dir base P Q, P.f0Method ≠ "mangio-crepe" →
      Q.voiceModel = P.voiceModel → Q.pitchChange = P.pitchChange →
      Q.pitchChangeAll = P.pitchChangeAll → Q.indexRate = P.indexRate →
      Q.filterRadius = P.filterRadius → Q.rmsMixRate = P.rmsMixRate →
      Q.f0Method = P.f0Method → Q.protect = P.protect →
      Q.outputFormat = P.outputFormat →
      aiPathNames dir base Q = aiPathNames dir base P) := by
  refine ⟨?_, ?_, ?_, ?_, ?_, ?_, ?_, ?_, ?_⟩
  · intro dir base P Q hpc hall hir hfr hrms hf0 hhop hpro hvm
    have ht := aiTail_congr P Q hpc hall hir hfr hrms hf0 hhop hpro
    constructor <;>
      · intro h
        simp only [aiPathNames] at h
        rw [ht] at h
        exact hvm (pathJoin_model_inj _ _ _ _ _ _ h)
  · intro dir base P Q hvm hall hir hfr hrms hf0 hhop hpro hpc
    have ht := aiTail_ne_of_pitch P Q hir hfr hrms hf0 hhop hpro hall hpc
    constructor <;>
      · intro h
        simp only [aiPathNames] at h
        rw [hvm] at h
        exact ht (pathJoin_tail_inj _ _ _ _ _ _ h)
  · intro dir base P Q hvm hpc hall hfr hrms hf0 hhop hpro hir
    have ht := aiTail_ne_of_indexRate P Q hpc hfr hrms hf0 hhop hpro hall hir
    constructor <;>
      · intro h
        simp only [aiPathNames] at h
        rw [hvm] at h
        exact ht (pathJoin_tail_inj _ _ _ _ _ _ h)
  · intro dir base P Q hvm hpc hall hir hrms hf0 hhop hpro hfr
    have ht := aiTail_ne_of_filterRadius P Q hpc hir hrms hf0 hhop hpro hall hfr
    constructor <;>
      · intro h
        simp only [aiPathNames] at h
        rw [hvm] at h
        exact ht (pathJoin_tail_inj _ _ _ _ _ _ h)
  · intro dir base P Q hvm hpc hall hir hfr hf0 hhop hpro hrms
    have ht := aiTail_ne_of_rmsMixRate P Q hpc hir hfr hf0 hhop hpro hall hrms
    constructor <;>
      · intro h
        simp only [aiPathNames] at h
        rw [hvm] at h
        exact ht (pathJoin_tail_inj _ _ _ _ _ _ h)
  · intro dir base P Q hvm hpc hall hir hfr hrms hf0 hhop hpro
    have ht := aiTail_ne_of_protect P Q hpc hir hfr hrms hf0 hhop hall hpro
    constructor <;>
      · intro h
        simp only [aiPathNames] at h
        rw [hvm] at h
        exact ht (pathJoin_tail_inj _ _ _ _ _ _ h)
  · intro dir base P Q hPset hQset hvm hpc hall hir hfr hrms hhop hpro hf0
    have ht := aiTail_ne_of_f0Method P Q hPset hQset hpc hir hfr hrms hhop hall hpro hf0
    constructor <;>
      · intro h
        simp only [aiPathNames] at h
        rw [hvm] at h
        exact ht (pathJoin_tail_inj _ _ _ _ _ _ h)
  · intro dir base P Q hPf0 hQf0 hvm hpc hall hir hfr hrms hpro hhop
    have ht := aiTail_ne_of_hop_mangio P Q hPf0 hQf0 hpc hir hfr hrms hall hpro hhop
    constructor <;>
      · intro h
        simp only [aiPathNames] at h
        rw [hvm] at h
        exact ht (pathJoin_tail_inj _ _ _ _ _ _ h)
  · intro dir base P Q hPf0 hvm hpc hall hir hfr hrms hf0 hpro hfmt
    have ht : aiTail Q = aiTail P := by
      simp only [aiTail]
      rw [hpc, hall, hir, hfr, hrms, hf0, hpro,
          algoSuffix_of_ne P.f0Method Q.crepeHopLength hPf0,
          algoSuffix_of_ne P.f0Method P.crepeHopLength hPf0]
    simp only [aiPathNames]
    rw [ht, hvm, hfmt]

/-- The parameters of the C8 witness: `c2FirstParams` with a different voice
model. -/
def c8AltModelParams : Params :=
  ⟨"https://youtu.be/dQw4w9WgXcQ", "bella", 2, false, 0, 0, 0, 1, 3, 1,
   "rmvpe", 128, 1, 0, 0, 0, 0, 0, "mp3"⟩

/-- Witness for claim C8 at a concrete input: changing only the voice model
changes both conversion-artifact paths. -/
theorem conversion_artifact_names_embed_parameters_witness :
    (aiPathNames "song_output/dQw4w9WgXcQ" "CoolSong" c8AltModelParams).1 ≠
      (aiPathNames "song_output/dQw4w9WgXcQ" "CoolSong" c2FirstParams).1 ∧
    (aiPathNames "song_output/dQw4w9WgXcQ" "CoolSong" c8AltModelParams).2.1 ≠
      (aiPathNames "song_output/dQw4w9WgXcQ" "CoolSong" c2FirstParams).2.1 :=
  conversion_artifact_names_embed_parameters.1 "song_output/dQw4w9WgXcQ" "CoolSong"
    c2FirstParams c8AltModelParams rfl rfl rfl rfl rfl rfl rfl rfl (by decide)

/-! ### Symbolic-execution lemmas about the stages -/

theorem fileExists_iff (d : Disk) (p : String) : fileExists d p = true ↔ p ∈ d.files := by
  simp [fileExists]

theorem fileExists_false_iff (d : Disk) (p : String) :
    fileExists d p = false ↔ p ∉ d.files := by
  simp [fileExists]

theorem mem_addFile (d : Disk) (p q : String) :
    p ∈ (addFile d q).files ↔ p = q ∨ p ∈ d.files := by
  simp [addFile]

theorem gapStep_comp₂ (acc : Option String × Option String × Option String × Option String)
    (p : String) : (gapStep acc p).2.1 = acc.2.1 ∨ (gapStep acc p).2.1 = some p := by
  rw [gapStep]
  split_ifs <;> simp

theorem gapStep_comp₃ (acc : Option String × Option String × Option String × Option String)
    (p : String) : (gapStep acc p).2.2.1 = acc.2.2.1 ∨ (gapStep acc p).2.2.1 = some p := by
  rw [gapStep]
  split_ifs <;> simp

theorem gapStep_comp₄ (acc : Option String × Option String × Option String × Option String)
    (p : String) : (gapStep acc p).2.2.2 = acc.2.2.2 ∨ (gapStep acc p).2.2.2 = some p := by
  rw [gapStep]
  split_ifs <;> simp

theorem gapFold_mem :
    ∀ (l : List String) (acc : Option String × Option String × Option String × Option String)
      (x : String),
      ((l.foldl gapStep acc).2.1 = some x → acc.2.1 = some x ∨ x ∈ l) ∧
      ((l.foldl gapStep acc).2.2.1 = some x → acc.2.2.1 = some x ∨ x ∈ l) ∧
      ((l.foldl gapStep acc).2.2.2 = some x → acc.2.2.2 = some x ∨ x ∈ l) := by
  intro l
  induction l with
  | nil => intro acc x; simp
  | cons p t ih =>
    intro acc x
    simp only [List.foldl_cons]
    refine ⟨?_, ?_, ?_⟩
    · intro h
      rcases (ih (gapStep acc p) x).1 h with h₁ | h₁
      · rcases gapStep_comp₂ acc p with h₂ | h₂
        · exact Or.inl (h₂ ▸ h₁)
        · rw [h₂] at h₁
          have hx : p = x := Option.some_inj.mp h₁
          exact Or.inr (by simp [hx])
      · exact Or.inr (by simp [h₁])
    · intro h
      rcases (ih (gapStep acc p) x).2.1 h with h₁ | h₁
      · rcases gapStep_comp₃ acc p with h₂ | h₂
        · exact Or.inl (h₂ ▸ h₁)
        · rw [h₂] at h₁
          have hx : p = x := Option.some_inj.mp h₁
          exact Or.inr (by simp [hx])
      · exact Or.inr (by simp [h₁])
    · intro h
      rcases (ih (gapStep acc p) x).2.2 h with h₁ | h₁
      · rcases gapStep_comp₄ acc p with h₂ | h₂
        · exact Or.inl (h₂ ▸ h₁)
        · rw [h₂] at h₁
          have hx : p = x := Option.some_inj.mp h₁
          exact Or.inr (by simp [hx])
      · exact Or.inr (by simp [h₁])

/-- The three artifacts that `get_audio_paths` actually finds are files of
the scanned directory (the derived original-song path need not exist). -/
theorem get_audio_paths_mem (song_dir : String) (d : Disk)
    (o : Option String) (i m b : String)
    (h : get_audio_paths song_dir d = (o, some i, some m, some b)) :
    i ∈ d.files ∧ m ∈ d.files ∧ b ∈ d.files := by
  rw [get_audio_paths] at h
  have hi := congrArg (fun t => t.2.1) h
  have hm := congrArg (fun t => t.2.2.1) h
  have hb := congrArg (fun t => t.2.2.2) h
  simp only at hi hm hb
  have lmem := gapFold_mem (d.files.filter fun p => strStarts p (song_dir ++ "/"))
    (none, none, none, none)
  refine ⟨?_, ?_, ?_⟩
  · rcases (lmem i).1 hi with h₁ | h₁
    · simp at h₁
    · exact (List.mem_filter.mp h₁).1
  · rcases (lmem m).2.1 hm with h₁ | h₁
    · simp at h₁
    · exact (List.mem_filter.mp h₁).1
  · rcases (lmem b).2.2 hb with h₁ | h₁
    · simp at h₁
    · exact (List.mem_filter.mp h₁).1

theorem voice_change_ok (v o : String) (d : Disk) (h : v ∈ d.files) :
    voice_change v o d = .ok (addFile d o) := by
  rw [voice_change]
  rw [(fileExists_iff d v).mpr h]
  rfl

theorem add_audio_effects_ok (p : String) (d : Disk) (h : p ∈ d.files) :
    add_audio_effects p d =
      .ok (splitextStem p ++ "_mixed.wav", addFile d (splitextStem p ++ "_mixed.wav")) := by
  rw [add_audio_effects]
  rw [(fileExists_iff d p).mpr h]
  rfl

theorem combine_audio_files_ok (a b c o : String) (d : Disk)
    (ha : a ∈ d.files) (hb : b ∈ d.files) (hc : c ∈ d.files) :
    combine_audio_files a b c o d = .ok (addFile d o) := by
  rw [combine_audio_files]
  rw [(fileExists_iff d a).mpr ha, (fileExists_iff d b).mpr hb, (fileExists_iff d c).mpr hc]
  rfl

theorem pitch_shift_ok (p : String) (n : Int) (d : Disk) (h : p ∈ d.files) :
    ∃ d', pitch_shift p n d = .ok (splitextStem p ++ "_p" ++ intRepr n ++ ".wav", d') ∧
      (splitextStem p ++ "_p" ++ intRepr n ++ ".wav") ∈ d'.files ∧
      ∀ q, q ∈ d.files → q ∈ d'.files := by
  rw [pitch_shift]
  by_cases hx : fileExists d (splitextStem p ++ "_p" ++ intRepr n ++ ".wav") = true
  · rw [if_pos hx]
    exact ⟨d, rfl, (fileExists_iff _ _).mp hx, fun q hq => hq⟩
  · rw [if_neg hx, (fileExists_iff d p).mpr h]
    refine ⟨addFile d (splitextStem p ++ "_p" ++ intRepr n ++ ".wav"), rfl, ?_, ?_⟩
    · exact (mem_addFile _ _ _).mpr (Or.inl rfl)
    · exact fun q hq => (mem_addFile _ _ _).mpr (Or.inr hq)

theorem removeIntermediates_benign (env : Env) (hb : ∀ f, env.undeletable f = false) :
    ∀ (l : List (Option String)) (d : Disk), ∃ d', removeIntermediates env l d = .ok d' := by
  intro l
  induction l with
  | nil => intro d; exact ⟨d, rfl⟩
  | cons x t ih =>
    intro d
    cases x with
    | none => exact ih d
    | some f =>
      rw [removeIntermediates]
      by_cases h0 : f = ""
      · rw [if_pos h0]
        exact ih d
      · rw [if_neg h0]
        by_cases hx : fileExists d f = true
        · rw [if_pos hx, hb f]
          simpa using ih (removeFile d f)
        · rw [if_neg hx]
          exact ih d

/-- A successful pass through the post-discovery stages: when the three read
stems exist, the lead conversion output is absent, and deletion succeeds,
the stages complete, conversion runs, and the resolved discovery paths are
returned unchanged. -/
theorem mainStages_ok (env : Env) (P : Params) (song_dir : String) (dv : DiscoverOut)
    (hm : dv.main_vocals_dereverb_path ∈ dv.disk.files)
    (hbk : dv.backup_vocals_path ∈ dv.disk.files)
    (hin : dv.instrumentals_path ∈ dv.disk.files)
    (hlead : fileExists dv.disk
      (aiPathNames song_dir (stemOfName (basename dv.orig_song_path)) P).1 = false)
    (hben : ∀ f, env.undeletable f = false) :
    ∃ r, mainStages env P song_dir dv = .ok r ∧ r.ranPreprocess = dv.ranPre ∧
      r.ranConversion = true ∧ r.orig_song_path = dv.orig_song_path ∧
      r.instrumentals_path = dv.instrumentals_path ∧
      r.main_vocals_dereverb_path = dv.main_vocals_dereverb_path ∧
      r.backup_vocals_path = dv.backup_vocals_path := by
  obtain ⟨o, v, i, mv, bk, mdr, dsk, rp⟩ := dv
  simp only at hm hbk hin hlead
  simp only [mainStages, hlead, Bool.not_false, if_true]
  generalize hL : (aiPathNames song_dir (stemOfName (basename o)) P).1 = L
  generalize hB : (aiPathNames song_dir (stemOfName (basename o)) P).2.1 = B
  generalize hC : (aiPathNames song_dir (stemOfName (basename o)) P).2.2.1 = C
  generalize hD : (aiPathNames song_dir (stemOfName (basename o)) P).2.2.2 = D
  rw [voice_change_ok mdr L dsk hm]
  dsimp only
  rw [voice_change_ok bk B (addFile dsk L) (by simp [addFile, hbk])]
  dsimp only
  rw [add_audio_effects_ok L (addFile (addFile dsk L) B) (by simp [addFile])]
  dsimp only
  rw [add_audio_effects_ok B (addFile (addFile (addFile dsk L) B)
      (splitextStem L ++ "_mixed.wav")) (by simp [addFile])]
  dsimp only
  by_cases hall : P.pitchChangeAll = 0
  · simp only [hall, ne_eq, not_true_eq_false, if_false]
    rw [combine_audio_files_ok (splitextStem L ++ "_mixed.wav") bk i C _
        (by simp [addFile]) (by simp [addFile, hbk]) (by simp [addFile, hin])]
    dsimp only
    rw [combine_audio_files_ok (splitextStem L ++ "_mixed.wav")
        (splitextStem B ++ "_mixed.wav") i D _
        (by simp [addFile]) (by simp [addFile]) (by simp [addFile, hin])]
    dsimp only
    by_cases hkF : P.keepFiles = true
    · simp only [hkF, if_true]
      exact ⟨_, rfl, rfl, rfl, rfl, rfl, rfl, rfl⟩
    · have hkF' : P.keepFiles = false := by simpa using hkF
      simp only [hkF', if_false]
      obtain ⟨dz, hz⟩ := removeIntermediates_benign env hben
        ([v, mv, some (splitextStem L ++ "_mixed.wav"),
          some (splitextStem B ++ "_mixed.wav")] ++ []) _
      rw [hz]
      exact ⟨_, rfl, rfl, rfl, rfl, rfl, rfl, rfl⟩
  · rw [if_pos hall]
    obtain ⟨d₅, hps₁, hmem₅, hpres₅⟩ := pitch_shift_ok i P.pitchChangeAll
      (addFile (addFile (addFile (addFile dsk L) B) (splitextStem L ++ "_mixed.wav"))
        (splitextStem B ++ "_mixed.wav")) (by simp [addFile, hin])
    rw [hps₁]
    dsimp only
    obtain ⟨d₆, hps₂, hmem₆, hpres₆⟩ := pitch_shift_ok bk P.pitchChangeAll d₅
      (hpres₅ bk (by simp [addFile, hbk]))
    rw [hps₂]
    dsimp only
    rw [combine_audio_files_ok (splitextStem L ++ "_mixed.wav")
        (splitextStem bk ++ "_p" ++ intRepr P.pitchChangeAll ++ ".wav")
        (splitextStem i ++ "_p" ++ intRepr P.pitchChangeAll ++ ".wav") C d₆
        (hpres₆ _ (hpres₅ _ (by simp [addFile]))) hmem₆ (hpres₆ _ hmem₅)]
    dsimp only
    rw [combine_audio_files_ok (splitextStem L ++ "_mixed.wav")
        (splitextStem B ++ "_mixed.wav")
        (splitextStem i ++ "_p" ++ intRepr P.pitchChangeAll ++ ".wav") D _
        (by simp [addFile]; exact Or.inr (hpres₆ _ (hpres₅ _ (by simp [addFile]))))
        (by simp [addFile]; exact Or.inr (hpres₆ _ (hpres₅ _ (by simp [addFile]))))
        (by simp [addFile]; exact Or.inr (hpres₆ _ hmem₅))]
    dsimp only
    by_cases hkF : P.keepFiles = true
    · simp only [hkF, if_true]
      exact ⟨_, rfl, rfl, rfl, rfl, rfl, rfl, rfl⟩
    · have hkF' : P.keepFiles = false := by simpa using hkF
      simp only [hkF', if_false, if_pos hall]
      obtain ⟨dz, hz⟩ := removeIntermediates_benign env hben
        ([v, mv, some (splitextStem L ++ "_mixed.wav"),
          some (splitextStem B ++ "_mixed.wav")] ++
         [some (splitextStem i ++ "_p" ++ intRepr P.pitchChangeAll ++ ".wav"),
          some (splitextStem bk ++ "_p" ++ intRepr P.pitchChangeAll ++ ".wav")]) _
      rw [hz]
      exact ⟨_, rfl, rfl, rfl, rfl, rfl, rfl, rfl⟩


/-- Claim C4: when the run directory exists, the four discovery artifacts
are found, and `keep_files` is false, the pipeline skips preprocessing
entirely (no download, stereo conversion or separation), reuses the
discovered artifact paths, and — with the lead conversion artifact absent,
as after a run interrupted right after separation — completes successfully
through the conversion stage. -/
theorem warm_cache_skips_preprocessing
    (env : Env) (P : Params) (d : Disk) (it : InputType) (si songId o i m b : String)
    (hres : resolveInput env d P.songInput P.voiceModel = .ok (it, si, songId))
    (hdir : dirExists d (pathJoin output_dir songId) = true)
    (hgap : get_audio_paths (pathJoin output_dir songId) d = (some o, some i, some m, some b))
    (hkeep : P.keepFiles = false)
    (hlead : fileExists d (aiPathNames (pathJoin output_dir songId)
        (stemOfName (basename o)) P).1 = false)
    (hben : ∀ f, env.undeletable f = false) :
    ∃ r, song_cover_pipeline env P d = .ok r ∧
      r.ranPreprocess = false ∧ r.ranConversion = true ∧
      r.orig_song_path = o ∧ r.instrumentals_path = i ∧
      r.main_vocals_dereverb_path = m ∧ r.backup_vocals_path = b := by
  obtain ⟨hi, hm, hb⟩ := get_audio_paths_mem _ _ _ _ _ _ hgap
  have hdisc : discoverStep env d si songId it P.keepFiles =
      .ok ⟨o, none, i, some m, b, m, d, false⟩ := by
    simp only [discoverStep, hdir, hgap, hkeep, Bool.true_eq_false, Bool.false_eq_true, if_false]
  have hpipe : song_cover_pipeline env P d = mainStages env P (pathJoin output_dir songId)
      ⟨o, none, i, some m, b, m, d, false⟩ := by
    simp only [song_cover_pipeline, hres, hdisc]
  obtain ⟨r, hr, hrp, hrc, ho, hi', hm', hb'⟩ :=
    mainStages_ok env P (pathJoin output_dir songId) ⟨o, none, i, some m, b, m, d, false⟩
      hm hb hi hlead hben
  exact ⟨r, by rw [hpipe, hr], hrp, hrc, ho, hi', hm', hb'⟩

/-- The warm run directory of the C4 witness: the four discovery artifacts
(the derived original-song path need not exist on disk) and no conversion
artifacts. -/
def c4Disk : Disk :=
  ⟨["song_output/dQw4w9WgXcQ/CoolSong_Instrumental.wav",
    "song_output/dQw4w9WgXcQ/CoolSong_Vocals_Main_DeReverb.wav",
    "song_output/dQw4w9WgXcQ/CoolSong_Vocals_Backup.wav"],
   ["song_output/dQw4w9WgXcQ"]⟩

/-- Witness for claim C4: on the concrete warm directory the pipeline
completes without re-running preprocessing and with the conversion stage
running. -/
theorem warm_cache_skips_preprocessing_witness :
    okAnd (song_cover_pipeline benignEnv freshParams c4Disk)
      (fun r => !r.ranPreprocess && r.ranConversion &&
        decide (r.main_vocals_dereverb_path =
          "song_output/dQw4w9WgXcQ/CoolSong_Vocals_Main_DeReverb.wav")) = true := by
  obtain ⟨r, hr, hrp, hrc, ho, hi, hm, hb⟩ :=
    warm_cache_skips_preprocessing benignEnv freshParams c4Disk InputType.yt
      "https://youtu.be/dQw4w9WgXcQ" "dQw4w9WgXcQ"
      "song_output/dQw4w9WgXcQ/CoolSong.wav"
      "song_output/dQw4w9WgXcQ/CoolSong_Instrumental.wav"
      "song_output/dQw4w9WgXcQ/CoolSong_Vocals_Main_DeReverb.wav"
      "song_output/dQw4w9WgXcQ/CoolSong_Vocals_Backup.wav"
      rfl (by decide) (by decide) rfl (by decide) (fun f => rfl)
  rw [okAnd.eq_def, hr]
  simp [hrp, hrc, hm]

/-- Claim C9: with a warm run directory (all four discovery artifacts
found), passing `keep_files = true` makes the discovery phase re-run the
entire preprocessing (download, stereo conversion and all separation passes,
which is what `preprocess_song` performs); and preprocessing is skipped only
when the directory exists, all four artifacts are found, and `keep_files` is
false. -/
theorem keep_files_forces_preprocessing :
    (∀ env d si songId it o i m b,
      dirExists d (pathJoin output_dir songId) = true →
      get_audio_paths (pathJoin output_dir songId) d = (some o, some i, some m, some b) →
      discoverStep env d si songId it true =
        (match preprocess_song env si songId it d with
         | .error e => .error e
         | .ok (o, v, i, m, b, mdr, d₂) => .ok ⟨o, some v, i, some m, b, mdr, d₂, true⟩)) ∧
    (∀ env d si songId it keep dv,
      discoverStep env d si songId it keep = .ok dv → dv.ranPre = false →
      dirExists d (pathJoin output_dir songId) = true ∧ keep = false ∧
      ∃ o i m b, get_audio_paths (pathJoin output_dir songId) d =
        (some o, some i, some m, some b)) := by
  constructor
  · intro env d si songId it o i m b hdir hgap
    simp only [discoverStep, hdir, hgap, Bool.true_eq_false, if_false, if_true]
  · intro env d si songId it keep dv hok hrp
    rw [discoverStep] at hok
    split at hok
    · rename_i hdir
      split at hok
      · exact absurd hok (by simp)
      · rename_i o v i m b mdr d₂ heq
        have := congrArg (fun x => match x with | Except.ok r => r.ranPre | _ => true) hok
        simp at this
        exact absurd (this ▸ hrp) (by simp)
    · rename_i hdir
      have hdir' : dirExists d (pathJoin output_dir songId) = true := by
        simpa using hdir
      split at hok
      · rename_i o i m b heq
        by_cases hkeep : keep = true
        · rw [if_pos hkeep] at hok
          split at hok
          · exact absurd hok (by simp)
          · have := congrArg (fun x => match x with | Except.ok r => r.ranPre | _ => true) hok
            simp at this
            exact absurd (this ▸ hrp) (by simp)
        · refine ⟨hdir', by simpa using hkeep, o, i, m, b, heq⟩
      · rename_i heq2
        split at hok
        · exact absurd hok (by simp)
        · have := congrArg (fun x => match x with | Except.ok r => r.ranPre | _ => true) hok
          simp at this
          exact absurd (this ▸ hrp) (by simp)

/-- Witness for claim C9: on the concrete warm directory with
`keep_files = true` the discovery phase literally becomes a call to
`preprocess_song`. -/
theorem keep_files_forces_preprocessing_witness :
    discoverStep benignEnv c4Disk "https://youtu.be/dQw4w9WgXcQ" "dQw4w9WgXcQ"
        InputType.yt true =
      (match preprocess_song benignEnv "https://youtu.be/dQw4w9WgXcQ" "dQw4w9WgXcQ"
          InputType.yt c4Disk with
       | .error e => .error e
       | .ok (o, v, i, m, b, mdr, d₂) => .ok ⟨o, some v, i, some m, b, mdr, d₂, true⟩) :=
  keep_files_forces_preprocessing.1 benignEnv c4Disk "https://youtu.be/dQw4w9WgXcQ"
    "dQw4w9WgXcQ" InputType.yt
    "song_output/dQw4w9WgXcQ/CoolSong.wav"
    "song_output/dQw4w9WgXcQ/CoolSong_Instrumental.wav"
    "song_output/dQw4w9WgXcQ/CoolSong_Vocals_Main_DeReverb.wav"
    "song_output/dQw4w9WgXcQ/CoolSong_Vocals_Backup.wav"
    (by decide) (by decide)

theorem mem_removeFile (d : Disk) (p q : String) :
    q ∈ (removeFile d p).files ↔ q ∈ d.files ∧ q ≠ p := by
  simp [removeFile]

/-- Claim C10: an input is classified as a remote reference exactly when
its parsed URL scheme is `https`; any other input — including an `http`
URL — is treated as a local path, and when no file exists there the
pipeline fails with the does-not-exist error instead of attempting a
download. -/
theorem non_https_is_local :
    (∀ env P d, P.songInput ≠ "" → P.voiceModel ≠ "" →
      (urlparse P.songInput).scheme ≠ "https" →
      fileExists d (stripQuotes P.songInput) = false →
      song_cover_pipeline env P d =
        .error (stripQuotes P.songInput ++ " does not exist.")) ∧
    (∀ env d s vm, s ≠ "" → vm ≠ "" → (urlparse s).scheme = "https" →
      resolveInput env d s vm =
        (match get_youtube_video_id s true with
         | none => .error "Invalid YouTube url."
         | some songId => .ok (InputType.yt, s, songId))) := by
  constructor
  · intro env P d h1 h2 hscheme hfile
    have hres : resolveInput env d P.songInput P.voiceModel =
        .error (stripQuotes P.songInput ++ " does not exist.") := by
      rw [resolveInput, if_neg (by simp [h1, h2]), if_neg hscheme,
          if_neg (by simp [hfile])]
    simp only [song_cover_pipeline, hres]
  · intro env d s vm h1 h2 hscheme
    rw [resolveInput, if_neg (by simp [h1, h2]), if_pos hscheme]

/-- Claim C5 (amended): a failure while deleting an intermediate file
during cleanup is not suppressed — the cleanup loop (and with it
`song_cover_pipeline`, which has no try/except around it) errors exactly
when some listed, nonempty, still-existing file is undeletable; the only
tolerated case is a file that is already absent, skipped by the existence
check. -/
theorem removeIntermediates_error_iff (env : Env) :
    ∀ (l : List (Option String)) (d : Disk),
      (∃ e, removeIntermediates env l d = .error e) ↔
      (∃ f, some f ∈ l ∧ f ≠ "" ∧ f ∈ d.files ∧ env.undeletable f = true) := by
  intro l
  induction l with
  | nil =>
    intro d
    simp [removeIntermediates]
  | cons x t ih =>
    intro d
    cases x with
    | none =>
      simp only [removeIntermediates]
      rw [ih d]
      constructor
      · rintro ⟨f, hf, h1, h2, h3⟩
        exact ⟨f, by simp [hf], h1, h2, h3⟩
      · rintro ⟨f, hf, h1, h2, h3⟩
        rcases List.mem_cons.mp hf with heq | hmem
        · exact absurd heq (by simp)
        · exact ⟨f, hmem, h1, h2, h3⟩
    | some f₀ =>
      simp only [removeIntermediates]
      by_cases h0 : f₀ = ""
      · rw [if_pos h0, ih d]
        constructor
        · rintro ⟨f, hf, h1, h2, h3⟩
          exact ⟨f, by simp [hf], h1, h2, h3⟩
        · rintro ⟨f, hf, h1, h2, h3⟩
          rcases List.mem_cons.mp hf with heq | hmem
          · exact absurd ((Option.some_inj.mp heq).trans h0) h1
          · exact ⟨f, hmem, h1, h2, h3⟩
      · rw [if_neg h0]
        by_cases hx : fileExists d f₀ = true
        · rw [if_pos hx]
          by_cases hu : env.undeletable f₀ = true
          · rw [if_pos hu]
            exact iff_of_true ⟨_, rfl⟩ ⟨f₀, by simp, h0, (fileExists_iff _ _).mp hx, hu⟩
          · have hu' : env.undeletable f₀ = false := by simpa using hu
            rw [if_neg hu, ih (removeFile d f₀)]
            constructor
            · rintro ⟨f, hf, h1, h2, h3⟩
              exact ⟨f, by simp [hf], h1, ((mem_removeFile _ _ _).mp h2).1, h3⟩
            · rintro ⟨f, hf, h1, h2, h3⟩
              rcases List.mem_cons.mp hf with heq | hmem
              · rw [Option.some_inj.mp heq] at h3
                exact absurd h3 (by simp [hu'])
              · refine ⟨f, hmem, h1, (mem_removeFile _ _ _).mpr ⟨h2, ?_⟩, h3⟩
                intro heq
                rw [heq] at h3
                exact absurd h3 (by simp [hu'])
        · rw [if_neg hx, ih d]
          constructor
          · rintro ⟨f, hf, h1, h2, h3⟩
            exact ⟨f, by simp [hf], h1, h2, h3⟩
          · rintro ⟨f, hf, h1, h2, h3⟩
            rcases List.mem_cons.mp hf with heq | hmem
            · rw [Option.some_inj.mp heq] at h2
              exact absurd ((fileExists_iff _ _).mpr h2) hx
            · exact ⟨f, hmem, h1, h2, h3⟩

/-- The C10 witness input: an `http` URL and an empty filesystem. -/
def c10Params : Params :=
  ⟨"http://youtu.be/dQw4w9WgXcQ", "alice", 0, false, 0, 0, 0, 1, 3, 1,
   "rmvpe", 128, 1, 0, 0, 0, 0, 0, "mp3"⟩

/-- Witness for claim C10: the `http` URL is treated as a missing local
file and the pipeline fails with the does-not-exist error. -/
theorem non_https_is_local_witness :
    song_cover_pipeline benignEnv c10Params ⟨[], []⟩ =
      .error "http://youtu.be/dQw4w9WgXcQ does not exist." :=
  non_https_is_local.1 benignEnv c10Params ⟨[], []⟩ (by decide) (by decide)
    (by decide) (by decide)

/-- Witness for the amended claim C5: on a one-file cleanup list whose file
exists but is undeletable, the cleanup loop errors. -/
theorem removeIntermediates_error_iff_witness :
    (match removeIntermediates undeletableMixedEnv
        [some "song_output/dQw4w9WgXcQ/CoolSong_lead_alice_p0_i1.1_fr3_rms1.1_pro1.1_rmvpe_mixed.wav"]
        ⟨["song_output/dQw4w9WgXcQ/CoolSong_lead_alice_p0_i1.1_fr3_rms1.1_pro1.1_rmvpe_mixed.wav"],
         []⟩ with
     | .ok _ => False
     | .error _ => True) := by
  obtain ⟨e, he⟩ := (removeIntermediates_error_iff undeletableMixedEnv
      [some "song_output/dQw4w9WgXcQ/CoolSong_lead_alice_p0_i1.1_fr3_rms1.1_pro1.1_rmvpe_mixed.wav"]
      ⟨["song_output/dQw4w9WgXcQ/CoolSong_lead_alice_p0_i1.1_fr3_rms1.1_pro1.1_rmvpe_mixed.wav"],
       []⟩).mpr
    ⟨"song_output/dQw4w9WgXcQ/CoolSong_lead_alice_p0_i1.1_fr3_rms1.1_pro1.1_rmvpe_mixed.wav",
     by decide, by decide, by decide, by decide⟩
  rw [he]
  trivial

end AICoverGenMod


